import Mathlib

/-!
# Verification of the notcoin-backend-contest flash-sale core

Shallow embedding of the Go sources:

* `internal/models/models.go`  — the entity records,
* `internal/store/postgres.go` — the durable store (Postgres) operations,
* the Redis cache store (`RedisStore`),
* the service layer (`SaleService`): sale cycle, checkout, purchase.

Modelling conventions:

* Wall-clock instants are integers (`Int`); Go's `time.Now().After(t)` is
  `now > t`, `Before` is `now < t`, and SQL `NOW() BETWEEN a AND b` is
  `a ≤ now ∧ now ≤ b` (inclusive on both ends, as in Postgres).
* SQL tables are association lists; `QueryRow`/`WHERE` lookups are `List.find?`,
  `UPDATE ... WHERE` is a conditional `List.map`, `INSERT` appends.
* A SQL transaction is a pure function returning `Except`: mutations become
  visible only through the `.ok` result (commit); every `.error` result carries
  no state, which is exactly `defer tx.Rollback()` + commit-at-end semantics.
* Infrastructure failures (database/redis unreachable) are injected through
  explicit fault flags, one per fallible call site, mirroring each `err != nil`
  branch of the Go code.
* Display metadata built with `fmt.Sprintf` (including a `rand.Intn` component
  in the image URL) is irrelevant to every claim; the image URL is abstracted
  to a fixed string, the item name keeps its deterministic shape.
-/

namespace Notcoin

/-- `models.Sale` (models.go). `created_at`/`updated_at` bookkeeping columns are
omitted: no operation of the core reads them. -/
structure Sale where
  id : Int
  startTime : Int
  endTime : Int
  totalItems : Int
  soldItems : Int
  isActive : Bool
deriving Repr, DecidableEq

/-- `models.Item` (models.go). -/
structure Item where
  id : Int
  saleId : Int
  name : String
  imageURL : String
  isSold : Bool
deriving Repr, DecidableEq

/-- `models.CheckoutAttempt` (models.go): the reservation record; `ID` is the
checkout code (token). -/
structure CheckoutAttempt where
  id : String
  userId : String
  itemId : Int
  saleId : Int
  expiresAt : Int
  isUsed : Bool
deriving Repr, DecidableEq

/-- `models.Purchase` (models.go). -/
structure Purchase where
  userId : String
  itemId : Int
  saleId : Int
  checkoutCode : String
deriving Repr, DecidableEq

/-- One row of the `user_sale_limits` table (`models.UserSaleSummary`). -/
structure UserSaleLimit where
  userId : String
  saleId : Int
  itemsPurchased : Int
deriving Repr, DecidableEq

/-- The durable store (Postgres database) state: the five tables of
`migrations/0001_initial_schema.sql`, plus the `SERIAL` id sequences for
`sales` and `items`. -/
structure DBState where
  sales : List Sale
  items : List Item
  attempts : List CheckoutAttempt
  purchases : List Purchase
  userSaleLimits : List UserSaleLimit
  nextSaleId : Int
  nextItemId : Int
deriving Repr, DecidableEq

/-- Whole-system state: durable store plus the Redis cache (an association
list from full Redis keys to the cached reservation records). -/
structure SysState where
  db : DBState
  cache : List (String × CheckoutAttempt)
deriving Repr, DecidableEq

/-- The sentinel errors of `internal/store/postgres.go` (`ErrDBItemAlreadySold`,
`ErrDBSaleLimitReached`, `ErrDBUserPurchaseLimitReached`); every other error the
store can return is a wrapped `fmt.Errorf` value, modelled as `.other msg`. -/
inductive DBErr where
  | itemAlreadySold
  | saleLimitReached
  | userPurchaseLimitReached
  | other (msg : String)
deriving Repr, DecidableEq

/-- The service-level errors of the `service` package. `.wrapped msg` stands
for a `fmt.Errorf`-wrapped error that is none of the named sentinels. -/
inductive ServiceError where
  | saleNotActive
  | itemNotFoundOrSold
  | userLimitReached
  | checkoutFailed
  | checkoutCodeInvalid
  | checkoutCodeAlreadyUsed
  | checkoutCodeExpired
  | saleLimitReached
  | purchaseFailed
  | wrapped (msg : String)
deriving Repr, DecidableEq

deriving instance DecidableEq for Except

/-- `userMaxItemsPerSale = 10` (service package constant). -/
def userMaxItemsPerSale : Int := 10

/-- `itemsPerSale = 10000` (service package constant). -/
def itemsPerSale : Nat := 10000

/-- `config.SaleDuration = time.Hour`, in seconds. -/
def saleDuration : Int := 3600

/-- `config.CodeTTLExpiry = 5 * time.Minute`, in seconds. -/
def codeTTLExpiry : Int := 300

/-! ## Redis cache store (`RedisStore`) -/

/-- The Redis key for a checkout code: `fmt.Sprintf("checkout_code:%s", code)`. -/
def cacheKey (code : String) : String := "checkout_code:" ++ code

/-- `RedisStore.GetCheckoutAttempt`: `GET` on the code's key; `redis.Nil`
(absence) is returned as `none`. Connection/unmarshal errors are injected by
the caller's fault flag. -/
def getCheckoutAttempt (cache : List (String × CheckoutAttempt)) (code : String) :
    Option CheckoutAttempt :=
  (cache.find? (fun p => p.1 = cacheKey code)).map Prod.snd

/-- `RedisStore.StoreCheckoutCode`: `SET` of the serialized attempt under the
code's key (the TTL is real time, outside the state model; natural expiry of a
cache entry is modelled as the entry being absent). -/
def storeCheckoutCode (cache : List (String × CheckoutAttempt))
    (attempt : CheckoutAttempt) : List (String × CheckoutAttempt) :=
  (cacheKey attempt.id, attempt) ::
    cache.filter (fun p => ¬(p.1 = cacheKey attempt.id))

/-- `RedisStore.DeleteCheckoutCode`: `DEL` on the code's key. -/
def deleteCheckoutCode (cache : List (String × CheckoutAttempt)) (code : String) :
    List (String × CheckoutAttempt) :=
  cache.filter (fun p => ¬(p.1 = cacheKey code))

/-! ## Durable store (`DBStore`, postgres.go) -/

/-- The `WHERE` predicate of `GetActiveSale`:
`is_active = TRUE AND NOW() BETWEEN start_time AND end_time`.
Postgres `BETWEEN` is inclusive on both bounds. -/
def saleLive (now : Int) (s : Sale) : Bool :=
  s.isActive && decide (s.startTime ≤ now) && decide (now ≤ s.endTime)

/-- One comparison step of `ORDER BY start_time DESC LIMIT 1`. -/
def pickStep (acc : Option Sale) (s : Sale) : Option Sale :=
  match acc with
  | none => some s
  | some b => if s.startTime > b.startTime then some s else some b

/-- `ORDER BY start_time DESC LIMIT 1`: pick a row maximising `start_time`
(ties resolved by first occurrence, as the SQL order is unspecified on ties). -/
def pickLatestByStart (l : List Sale) : Option Sale :=
  l.foldl pickStep none

/-- `DBStore.GetActiveSale`: the live sale with the latest start, or `none`
(`sql.ErrNoRows` is converted to a nil result by the Go code). -/
def getActiveSale (db : DBState) (now : Int) : Option Sale :=
  pickLatestByStart (db.sales.filter (saleLive now))

/-- `DBStore.GetItemForCheckout`:
`WHERE id = $1 AND sale_id = $2 AND is_sold = FALSE`, nil on no rows. -/
def getItemForCheckout (db : DBState) (itemId saleId : Int) : Option Item :=
  db.items.find? (fun it =>
    decide (it.id = itemId) && decide (it.saleId = saleId) && !it.isSold)

/-- The row predicate `user_id = $1 AND sale_id = $2` on `user_sale_limits`. -/
def userSaleKeyB (userId : String) (saleId : Int) (x : UserSaleLimit) : Bool :=
  decide (x.userId = userId) && decide (x.saleId = saleId)

/-- The `items_purchased` value stored for a `(user_id, sale_id)` key in a
`user_sale_limits` table, `0` when the row is absent (`sql.ErrNoRows`). -/
def countIn (ls : List UserSaleLimit) (userId : String) (saleId : Int) : Int :=
  match ls.find? (userSaleKeyB userId saleId) with
  | none => 0
  | some u => u.itemsPurchased

/-- `DBStore.GetUserPurchaseCountForSale`: `items_purchased` for the
`(user_id, sale_id)` key, `0` on no rows. -/
def getUserPurchaseCountForSale (db : DBState) (userId : String) (saleId : Int) : Int :=
  countIn db.userSaleLimits userId saleId

/-- `DBStore.CreateCheckoutAttempt`: `INSERT INTO checkout_attempts`. -/
def createCheckoutAttempt (db : DBState) (attempt : CheckoutAttempt) : DBState :=
  { db with attempts := db.attempts ++ [attempt] }

/-- `DBStore.GetCheckoutAttemptByID`: `WHERE id = $1`, nil on no rows. -/
def getCheckoutAttemptByID (db : DBState) (code : String) : Option CheckoutAttempt :=
  db.attempts.find? (fun a => a.id = code)

/-- `DBStore.GetSaleByID`: `WHERE id = $1`, nil on no rows. -/
def getSaleByID (db : DBState) (saleId : Int) : Option Sale :=
  db.sales.find? (fun s => s.id = saleId)

/-- The guarded counter upsert of `ExecutePurchaseTransaction`:
`INSERT INTO user_sale_limits (user_id, sale_id, items_purchased) VALUES ($1,$2,1)
ON CONFLICT (user_id, sale_id) DO UPDATE SET items_purchased = items_purchased + 1
WHERE user_sale_limits.items_purchased < $3`.
On conflict with the guard false the statement is a no-op (not an error):
`bumpIfBelow` is the conflict-branch row update, `upsertUserSaleLimit` the
whole statement. -/
def bumpIfBelow (userId : String) (saleId : Int) (limit : Int)
    (x : UserSaleLimit) : UserSaleLimit :=
  if x.userId = userId ∧ x.saleId = saleId then
    (if x.itemsPurchased < limit then
      { x with itemsPurchased := x.itemsPurchased + 1 }
    else x)
  else x

def upsertUserSaleLimit (ls : List UserSaleLimit) (userId : String) (saleId : Int)
    (limit : Int) : List UserSaleLimit :=
  if ls.any (userSaleKeyB userId saleId) then
    ls.map (bumpIfBelow userId saleId limit)
  else ls ++ [⟨userId, saleId, 1⟩]

/-- The mutation block of `ExecutePurchaseTransaction` (postgres.go:339-370),
as applied at commit: mark the item row sold (`UPDATE items ... WHERE id = $1`),
increment the sale's counter (`UPDATE sales SET sold_items = sold_items + 1
WHERE id = $1`), insert the purchase row, guarded-upsert the user counter,
mark the attempt used (`UPDATE checkout_attempts ... WHERE id = $1`). The
five statements run sequentially on disjoint tables, so their composition is
this simultaneous update of the transaction snapshot.
`markItemSold` is the row update of `UPDATE items SET is_sold = TRUE WHERE
id = $1`. -/
def markItemSold (itemId : Int) (it : Item) : Item :=
  if it.id = itemId then { it with isSold := true } else it

/-- Row update of `UPDATE sales SET sold_items = sold_items + 1 WHERE id = $1`. -/
def bumpSaleSold (saleId : Int) (s : Sale) : Sale :=
  if s.id = saleId then { s with soldItems := s.soldItems + 1 } else s

/-- Row update of `UPDATE checkout_attempts SET is_used = TRUE WHERE id = $1`. -/
def markAttemptUsed (code : String) (a : CheckoutAttempt) : CheckoutAttempt :=
  if a.id = code then { a with isUsed := true } else a

def commitPurchase (db : DBState) (userId : String) (itemId saleId : Int)
    (checkoutCode : String) (userItemLimitPerSale : Int) : DBState :=
  { db with
    items := db.items.map (markItemSold itemId),
    sales := db.sales.map (bumpSaleSold saleId),
    purchases := db.purchases ++ [(⟨userId, itemId, saleId, checkoutCode⟩ : Purchase)],
    userSaleLimits :=
      upsertUserSaleLimit db.userSaleLimits userId saleId userItemLimitPerSale,
    attempts := db.attempts.map (markAttemptUsed checkoutCode) }

/-- `DBStore.ExecutePurchaseTransaction` (postgres.go:296-378): the single
atomic allocation transaction. `txErr` injects an infrastructure failure at
any of the transaction's statements (begin, a query, an update, or the commit):
in Go each such failure returns a wrapped error and the deferred rollback
discards every mutation, so all of them collapse to the same observable
outcome — a non-sentinel error and an unchanged database.

Statement order, as in the source: lock the item row (`FOR UPDATE` by id and
sale id) and check `is_sold`; lock the sale row and check active/end-time,
then `sold_items < total_items`; read the user counter (`FOR UPDATE`, zero
when absent) and check it against the limit; then apply `commitPurchase` and
commit. -/
def executePurchaseTransaction (db : DBState) (userId : String)
    (itemId saleId : Int) (checkoutCode : String) (userItemLimitPerSale : Int)
    (now : Int) (txErr : Bool) : Except DBErr (DBState × Item) :=
  if txErr then .error (.other "transaction infrastructure failure") else
  match db.items.find? (fun it =>
      decide (it.id = itemId) && decide (it.saleId = saleId)) with
  | none => .error (.other "item not found")
  | some item =>
    if item.isSold then .error .itemAlreadySold else
    match db.sales.find? (fun s => s.id = saleId) with
    | none => .error (.other "failed to lock sale")
    | some currentSale =>
      if !currentSale.isActive || decide (now > currentSale.endTime) then
        .error (.other "sale is not active or has ended")
      else if decide (currentSale.soldItems ≥ currentSale.totalItems) then
        .error .saleLimitReached
      else if decide (getUserPurchaseCountForSale db userId saleId ≥ userItemLimitPerSale) then
        .error .userPurchaseLimitReached
      else
        .ok (commitPurchase db userId itemId saleId checkoutCode userItemLimitPerSale,
             { item with isSold := true })

/-- `DBStore.DeactivateAllActiveSales`:
`UPDATE sales SET is_active = FALSE WHERE is_active = TRUE`. -/
def deactivateSaleRow (s : Sale) : Sale :=
  if s.isActive then { s with isActive := false } else s

def deactivateAllActiveSales (db : DBState) : DBState :=
  { db with sales := db.sales.map deactivateSaleRow }

/-- `DBStore.DeactivateSaleByID`:
`UPDATE sales SET is_active = FALSE WHERE id = $1`. -/
def deactivateIfId (saleId : Int) (s : Sale) : Sale :=
  if s.id = saleId then { s with isActive := false } else s

def deactivateSaleByID (db : DBState) (saleId : Int) : DBState :=
  { db with sales := db.sales.map (deactivateIfId saleId) }

/-- `DBStore.CreateSale`: `INSERT INTO sales ... RETURNING id`; the new row's
id comes from the `SERIAL` sequence. -/
def createSale (db : DBState) (sale : Sale) : DBState × Sale :=
  let created := { sale with id := db.nextSaleId }
  ({ db with sales := db.sales ++ [created], nextSaleId := db.nextSaleId + 1 },
   created)

/-- `DBStore.CreateItemsBatch`: one transaction inserting the batch of item
rows; each row's id comes from the `SERIAL` sequence. -/
def createItemsBatch (db : DBState) (saleId : Int) (n : Nat) : DBState :=
  let newItems := (List.range n).map (fun i =>
    { id := db.nextItemId + (i : Int), saleId := saleId,
      name := "Awesome Item #" ++ toString saleId ++ "-" ++ toString (i + 1),
      imageURL := "https://example.com/image.png",
      isSold := false : Item })
  { db with items := db.items ++ newItems,
            nextItemId := db.nextItemId + (n : Int) }

/-! ## Service layer (`SaleService`) -/

/-- Fault flags for `ProcessPurchase`, one per fallible infrastructure call:
`redisGetErr` — the Redis `GET` (or unmarshal) fails;
`dbGetAttemptErr` — `GetCheckoutAttemptByID` fails;
`dbGetSaleErr` — `GetSaleByID` fails (phase A sale fetch);
`txErr` — some statement of `ExecutePurchaseTransaction` fails;
`redisDelErr` — the Redis `DEL` after commit fails. -/
structure PurchaseFaults where
  redisGetErr : Bool
  dbGetAttemptErr : Bool
  dbGetSaleErr : Bool
  txErr : Bool
  redisDelErr : Bool
deriving Repr, DecidableEq

/-- The all-healthy fault assignment. -/
def noPurchaseFaults : PurchaseFaults := ⟨false, false, false, false, false⟩

/-- Fault flags for `ProcessCheckout`:
`dbGetSaleErr` — `GetActiveSale` fails;
`dbGetItemErr` — `GetItemForCheckout` fails;
`dbGetCountErr` — `GetUserPurchaseCountForSale` fails;
`genCodeErr` — `generateUniqueID` fails (entropy source unavailable);
`dbInsertErr` — `CreateCheckoutAttempt` (the durable write) fails;
`redisSetErr` — `StoreCheckoutCode` (the cache write) fails. -/
structure CheckoutFaults where
  dbGetSaleErr : Bool
  dbGetItemErr : Bool
  dbGetCountErr : Bool
  genCodeErr : Bool
  dbInsertErr : Bool
  redisSetErr : Bool
deriving Repr, DecidableEq

/-- The all-healthy fault assignment. -/
def noCheckoutFaults : CheckoutFaults := ⟨false, false, false, false, false, false⟩

/-- The token-resolution block at the top of
`SaleService.getValidCheckoutAttempt`: Redis first (an error is logged and
leaves `attempt == nil`), then the durable store on a nil attempt; a token
found in neither store is `ErrCheckoutCodeInvalid`; a database failure on the
fallback read surfaces as a wrapped generic error. -/
def resolveAttempt (s : SysState) (code : String) (f : PurchaseFaults) :
    Except ServiceError CheckoutAttempt :=
  match (if f.redisGetErr then none else getCheckoutAttempt s.cache code : Option CheckoutAttempt) with
  | some a => .ok a
  | none =>
    if f.dbGetAttemptErr then
      .error (.wrapped "failed to query checkout attempt from DB")
    else
      match getCheckoutAttemptByID s.db code with
      | none => .error .checkoutCodeInvalid
      | some a => .ok a

/-- `SaleService.getValidCheckoutAttempt` (phase A): resolve the token
(cache-then-store), then check `used`, then expiry (`now > expires_at`),
then fetch the reservation's sale and require it active and inside
`[start_time, end_time]`; a `GetSaleByID` error or nil sale both map to
`ErrSaleNotActive`, as in the source (`if err != nil || sale == nil`).
`validateAttempt` is the tail of the function after the resolution block. -/
def validateAttempt (s : SysState) (now : Int) (f : PurchaseFaults)
    (attempt : CheckoutAttempt) : Except ServiceError CheckoutAttempt :=
  if attempt.isUsed then .error .checkoutCodeAlreadyUsed
  else if decide (now > attempt.expiresAt) then .error .checkoutCodeExpired
  else
    match (if f.dbGetSaleErr then none else getSaleByID s.db attempt.saleId :
        Option Sale) with
    | none => .error .saleNotActive
    | some sale =>
      if !sale.isActive || decide (now > sale.endTime)
          || decide (now < sale.startTime) then
        .error .saleNotActive
      else .ok attempt

def getValidCheckoutAttempt (s : SysState) (code : String) (now : Int)
    (f : PurchaseFaults) : Except ServiceError CheckoutAttempt :=
  match resolveAttempt s code f with
  | .error e => .error e
  | .ok attempt => validateAttempt s now f attempt

/-- `SaleService.ProcessPurchase`: phase A (`getValidCheckoutAttempt`, clock
reading `nowA`), then `ExecutePurchaseTransaction` (clock reading `nowB`;
Go calls `time.Now()` afresh inside the transaction). Sentinel store errors
map to their service errors; any other transaction error maps to
`ErrPurchaseFailed`. On success the cache entry is deleted best-effort: a
`DEL` failure is logged and swallowed. -/
def processPurchase (s : SysState) (code : String) (nowA nowB : Int)
    (f : PurchaseFaults) : Except ServiceError (SysState × Item) :=
  match getValidCheckoutAttempt s code nowA f with
  | .error e => .error e
  | .ok attempt =>
    match executePurchaseTransaction s.db attempt.userId attempt.itemId
        attempt.saleId attempt.id userMaxItemsPerSale nowB f.txErr with
    | .error .itemAlreadySold => .error .itemNotFoundOrSold
    | .error .saleLimitReached => .error .saleLimitReached
    | .error .userPurchaseLimitReached => .error .userLimitReached
    | .error (.other _) => .error .purchaseFailed
    | .ok (db', item) =>
      let cache' := if f.redisDelErr then s.cache else deleteCheckoutCode s.cache code
      .ok ({ db := db', cache := cache' }, item)

/-- `SaleService.ProcessCheckout`: fetch the active sale, the item (scoped to
it, unsold), the user's counter; generate the code (`newCode` stands for the
value `generateUniqueID` produced); persist the reservation with expiry
`now + CodeTTLExpiry`; mirror it into the cache best-effort (a `SET` failure
is logged and swallowed). Database read errors surface as wrapped generic
errors; the generation and durable-write failures carry `ErrCheckoutFailed`. -/
def processCheckout (s : SysState) (userId : String) (itemId : Int) (now : Int)
    (newCode : String) (f : CheckoutFaults) :
    Except ServiceError (String × SysState) :=
  if f.dbGetSaleErr then .error (.wrapped "failed to get active sale") else
  match getActiveSale s.db now with
  | none => .error .saleNotActive
  | some activeSale =>
    if f.dbGetItemErr then .error (.wrapped "failed to get item details") else
    match getItemForCheckout s.db itemId activeSale.id with
    | none => .error .itemNotFoundOrSold
    | some _item =>
      if f.dbGetCountErr then .error (.wrapped "failed to get user purchase count")
      else if decide (getUserPurchaseCountForSale s.db userId activeSale.id ≥
          userMaxItemsPerSale) then
        .error .userLimitReached
      else if f.genCodeErr then .error .checkoutFailed
      else if f.dbInsertErr then .error .checkoutFailed
      else
        .ok (newCode,
          { db := createCheckoutAttempt s.db
              ⟨newCode, userId, itemId, activeSale.id, now + codeTTLExpiry, false⟩,
            cache := if f.redisSetErr then s.cache
                     else storeCheckoutCode s.cache
                       ⟨newCode, userId, itemId, activeSale.id, now + codeTTLExpiry, false⟩ })

/-- Fault flags for one scheduler cycle, one per fallible store call:
`deactivateAllErr` — `DeactivateAllActiveSales` fails (the Go code logs the
error and the cycle CONTINUES, part_000:289-293);
`createSaleErr` — `CreateSale` fails (the cycle aborts with an error);
`provisionErr` — `CreateItemsBatch` fails;
`deactivateNewErr` — the compensating `DeactivateSaleByID` after a
provisioning failure fails (the Go code logs and swallows it,
part_000:336-338, leaving the fresh sale active). -/
structure SchedulerFaults where
  deactivateAllErr : Bool
  createSaleErr : Bool
  provisionErr : Bool
  deactivateNewErr : Bool
deriving Repr, DecidableEq

/-- The all-healthy fault assignment. -/
def noSchedulerFaults : SchedulerFaults := ⟨false, false, false, false⟩

/-- `SaleService.CreateNewSaleAndItems`: insert the sale row (start `now`,
end `now + SaleDuration`, total `itemsPerSale`, sold 0, active), then
bulk-provision the items; if provisioning fails, the sale is deactivated and
the error propagates — but a failure of that deactivation is only logged, so
the fresh sale then stays active. `none` signals the cycle returned an
error. -/
def createNewSaleAndItems (db : DBState) (now : Int) (f : SchedulerFaults) :
    DBState × Option Sale :=
  if f.createSaleErr then (db, none)
  else
    let (db1, createdSale) := createSale db
      { id := 0, startTime := now, endTime := now + saleDuration,
        totalItems := (itemsPerSale : Int), soldItems := 0, isActive := true }
    if f.provisionErr then
      (if f.deactivateNewErr then db1 else deactivateSaleByID db1 createdSale.id,
       none)
    else (createItemsBatch db1 createdSale.id itemsPerSale, some createdSale)

/-- `SaleService.ManageHourlySaleCycle`: deactivate every active sale, then
create the new sale with its inventory. A `DeactivateAllActiveSales` failure
is logged and the cycle proceeds to create the new sale anyway. -/
def manageHourlySaleCycle (db : DBState) (now : Int) (f : SchedulerFaults) :
    DBState :=
  (createNewSaleAndItems
    (if f.deactivateAllErr then db else deactivateAllActiveSales db) now f).1

/-! ## Traces of purchase attempts

The database linearizes `ExecutePurchaseTransaction` calls (each takes the
item/sale/counter row locks), so any set of concurrent purchase attempts is
observed as some sequential order of whole attempts; the concurrency claims
are stated over all such sequential traces. -/

/-- One `CompletePurchase` invocation: the submitted code, the clock readings
of phase A and phase B, and the infrastructure faults it encounters. -/
structure PurchaseReq where
  code : String
  nowA : Int
  nowB : Int
  faults : PurchaseFaults
deriving Repr, DecidableEq

/-- Run one purchase attempt: a failing attempt leaves the state unchanged
(the transaction rolled back, the cache untouched). -/
def applyPurchase (s : SysState) (r : PurchaseReq) :
    SysState × Except ServiceError Item :=
  match processPurchase s r.code r.nowA r.nowB r.faults with
  | .error e => (s, .error e)
  | .ok (s', it) => (s', .ok it)

/-- Run a sequence of purchase attempts, collecting each outcome. -/
def runPurchases : SysState → List PurchaseReq →
    SysState × List (Except ServiceError Item)
  | s, [] => (s, [])
  | s, r :: rest =>
    let step := applyPurchase s r
    let next := runPurchases step.1 rest
    (next.1, step.2 :: next.2)

/-- Did this outcome successfully allocate the item with id `i`? -/
def isSuccessForItem (i : Int) : Except ServiceError Item → Bool
  | .ok it => decide (it.id = i)
  | .error _ => false

/-- Did this outcome successfully allocate an item of the sale with id `σ`? -/
def isSuccessForSale (σ : Int) : Except ServiceError Item → Bool
  | .ok it => decide (it.saleId = σ)
  | .error _ => false

/-- Number of successful purchases of the item with id `i` in a trace. -/
def succCountForItem (res : List (Except ServiceError Item)) (i : Int) : Nat :=
  res.countP (isSuccessForItem i)

/-- Number of successful purchases against the sale with id `σ` in a trace. -/
def succCountForSale (res : List (Except ServiceError Item)) (σ : Int) : Nat :=
  res.countP (isSuccessForSale σ)

/-- Every item row with id `i` carries `is_sold = TRUE`. -/
def itemSold (db : DBState) (i : Int) : Prop :=
  ∀ it ∈ db.items, it.id = i → it.isSold = true

instance (db : DBState) (i : Int) : Decidable (itemSold db i) := by
  unfold itemSold; infer_instance

/-- The `sold_items` column of the sale row with id `σ` (0 if absent). -/
def soldOfSale (db : DBState) (σ : Int) : Int :=
  match db.sales.find? (fun s => s.id = σ) with
  | none => 0
  | some sa => sa.soldItems

/-- The `total_items` column of the sale row with id `σ` (0 if absent). -/
def totalOfSale (db : DBState) (σ : Int) : Int :=
  match db.sales.find? (fun s => s.id = σ) with
  | none => 0
  | some sa => sa.totalItems

/-! ## Helper lemmas -/

/-- `find?` commutes with a `map` whose function does not change the
predicate's verdict. -/
theorem find?_map_pred_eq {α : Type} (p : α → Bool) (f : α → α)
    (hf : ∀ x, p (f x) = p x) (l : List α) :
    (l.map f).find? p = (l.find? p).map f := by
  rw [List.find?_map]
  have hcomp : (p ∘ f) = p := funext hf
  rw [hcomp]

/-- `bumpIfBelow` only changes the count field, never the key fields. -/
theorem bumpIfBelow_key (u : String) (σ L : Int) (x : UserSaleLimit) :
    (bumpIfBelow u σ L x).userId = x.userId ∧ (bumpIfBelow u σ L x).saleId = x.saleId := by
  unfold bumpIfBelow
  by_cases hx : x.userId = u ∧ x.saleId = σ
  · rw [if_pos hx]
    by_cases hc : x.itemsPurchased < L
    · rw [if_pos hc]; exact ⟨rfl, rfl⟩
    · rw [if_neg hc]; exact ⟨rfl, rfl⟩
  · rw [if_neg hx]; exact ⟨rfl, rfl⟩

theorem userSaleKeyB_bumpIfBelow (u' : String) (σ' : Int) (u : String) (σ L : Int)
    (x : UserSaleLimit) :
    userSaleKeyB u' σ' (bumpIfBelow u σ L x) = userSaleKeyB u' σ' x := by
  unfold userSaleKeyB
  rw [(bumpIfBelow_key u σ L x).1, (bumpIfBelow_key u σ L x).2]

/-- The guarded upsert leaves every other `(user, sale)` key's count alone. -/
theorem countIn_upsert_other (ls : List UserSaleLimit) (u u' : String)
    (σ σ' : Int) (L : Int) (h : ¬(u' = u ∧ σ' = σ)) :
    countIn (upsertUserSaleLimit ls u σ L) u' σ' = countIn ls u' σ' := by
  unfold upsertUserSaleLimit
  by_cases hany : ls.any (userSaleKeyB u σ) = true
  · rw [if_pos hany]
    unfold countIn
    rw [find?_map_pred_eq (userSaleKeyB u' σ') (bumpIfBelow u σ L)
      (userSaleKeyB_bumpIfBelow u' σ' u σ L) ls]
    cases hr : ls.find? (userSaleKeyB u' σ') with
    | none => rfl
    | some r =>
      have hk := List.find?_some hr
      unfold userSaleKeyB at hk
      simp only [Bool.and_eq_true, decide_eq_true_eq] at hk
      rw [Option.map_some']
      show (bumpIfBelow u σ L r).itemsPurchased = r.itemsPurchased
      unfold bumpIfBelow
      rw [if_neg (by rintro ⟨h1, h2⟩; exact h ⟨hk.1 ▸ h1, hk.2 ▸ h2⟩)]
  · rw [if_neg hany]
    unfold countIn
    rw [List.find?_append]
    have hlast : List.find? (userSaleKeyB u' σ') [(⟨u, σ, 1⟩ : UserSaleLimit)] = none := by
      have hkey : userSaleKeyB u' σ' (⟨u, σ, 1⟩ : UserSaleLimit) = false := by
        unfold userSaleKeyB
        simp only [Bool.and_eq_false_iff, decide_eq_false_iff_not]
        by_cases h1 : u = u'
        · right
          intro h2
          exact h ⟨h1.symm, h2.symm⟩
        · left; exact h1
      simp [List.find?_cons, hkey]
    rw [hlast, Option.or_none]

/-- Effect of the guarded upsert on its own `(user, sale)` key: insert `1`
when the row is absent; otherwise increment only strictly below the limit. -/
theorem countIn_upsert_self (ls : List UserSaleLimit) (u : String) (σ : Int)
    (L : Int) :
    countIn (upsertUserSaleLimit ls u σ L) u σ =
      match ls.find? (userSaleKeyB u σ) with
      | none => 1
      | some r =>
        if r.itemsPurchased < L then r.itemsPurchased + 1 else r.itemsPurchased := by
  cases hr : ls.find? (userSaleKeyB u σ) with
  | none =>
    have hany : ls.any (userSaleKeyB u σ) = false := by
      rw [List.any_eq_false]
      intro x hx
      exact List.find?_eq_none.mp hr x hx
    unfold upsertUserSaleLimit countIn
    rw [if_neg (by rw [hany]; exact Bool.false_ne_true)]
    rw [List.find?_append, hr, Option.none_or]
    have hkey : userSaleKeyB u σ (⟨u, σ, 1⟩ : UserSaleLimit) = true := by
      unfold userSaleKeyB
      simp
    simp [List.find?_cons, hkey]
  | some r =>
    have hany : ls.any (userSaleKeyB u σ) = true := by
      rw [List.any_eq_true]
      exact ⟨r, List.mem_of_find?_eq_some hr, List.find?_some hr⟩
    have hk := List.find?_some hr
    unfold userSaleKeyB at hk
    simp only [Bool.and_eq_true, decide_eq_true_eq] at hk
    unfold upsertUserSaleLimit countIn
    rw [if_pos hany]
    rw [find?_map_pred_eq (userSaleKeyB u σ) (bumpIfBelow u σ L)
      (userSaleKeyB_bumpIfBelow u σ u σ L) ls]
    rw [hr, Option.map_some']
    show (bumpIfBelow u σ L r).itemsPurchased = _
    unfold bumpIfBelow
    rw [if_pos ⟨hk.1, hk.2⟩]
    by_cases hc : r.itemsPurchased < L
    · rw [if_pos hc]
      show r.itemsPurchased + 1 =
        if r.itemsPurchased < L then r.itemsPurchased + 1 else r.itemsPurchased
      rw [if_pos hc]
    · rw [if_neg hc]
      show r.itemsPurchased =
        if r.itemsPurchased < L then r.itemsPurchased + 1 else r.itemsPurchased
      rw [if_neg hc]

/-- The guarded upsert never pushes its own key's count past the per-user
limit of 10, provided it did not already exceed it. -/
theorem countIn_upsert_le (ls : List UserSaleLimit) (u : String) (σ : Int)
    (h : countIn ls u σ ≤ userMaxItemsPerSale) :
    countIn (upsertUserSaleLimit ls u σ userMaxItemsPerSale) u σ ≤ userMaxItemsPerSale := by
  rw [countIn_upsert_self]
  cases hr : ls.find? (userSaleKeyB u σ) with
  | none =>
    norm_num [userMaxItemsPerSale]
  | some r =>
    have hcount : countIn ls u σ = r.itemsPurchased := by
      unfold countIn
      rw [hr]
    rw [hcount] at h
    show (if r.itemsPurchased < userMaxItemsPerSale then r.itemsPurchased + 1
          else r.itemsPurchased) ≤ userMaxItemsPerSale
    by_cases hc : r.itemsPurchased < userMaxItemsPerSale
    · rw [if_pos hc]
      omega
    · rw [if_neg hc]
      exact h

/-- `markItemSold` never changes an item's id. -/
theorem markItemSold_id (i : Int) (it : Item) : (markItemSold i it).id = it.id := by
  unfold markItemSold
  by_cases h : it.id = i
  · rw [if_pos h]
  · rw [if_neg h]

/-- `bumpSaleSold` changes neither a sale's id nor its `total_items`. -/
theorem bumpSaleSold_id_total (σ : Int) (s : Sale) :
    (bumpSaleSold σ s).id = s.id ∧ (bumpSaleSold σ s).totalItems = s.totalItems := by
  unfold bumpSaleSold
  by_cases h : s.id = σ
  · rw [if_pos h]; exact ⟨rfl, rfl⟩
  · rw [if_neg h]; exact ⟨rfl, rfl⟩

/-- The commit marks every item row with the target id as sold. -/
theorem itemSold_commitPurchase_self (db : DBState) (u : String) (i σ : Int)
    (c : String) (L : Int) :
    itemSold (commitPurchase db u i σ c L) i := by
  intro it hmem hid
  simp only [commitPurchase, List.mem_map] at hmem
  obtain ⟨row, _hrow, rfl⟩ := hmem
  unfold markItemSold at hid ⊢
  by_cases h : row.id = i
  · rw [if_pos h]
  · rw [if_neg h] at hid ⊢
    exact absurd hid h

/-- The commit never clears a sold flag: a sold item stays sold. -/
theorem itemSold_commitPurchase_mono (db : DBState) (u : String) (i σ : Int)
    (c : String) (L : Int) (j : Int) (hs : itemSold db j) :
    itemSold (commitPurchase db u i σ c L) j := by
  intro it hmem hid
  simp only [commitPurchase, List.mem_map] at hmem
  obtain ⟨row, hrow, rfl⟩ := hmem
  unfold markItemSold at hid ⊢
  by_cases h : row.id = i
  · rw [if_pos h]
  · rw [if_neg h] at hid ⊢
    exact hs row hrow hid

/-- The commit leaves every other sale's `sold_items` unchanged. -/
theorem soldOfSale_commitPurchase_other (db : DBState) (u : String) (i σ : Int)
    (c : String) (L : Int) (σ' : Int) (h : σ' ≠ σ) :
    soldOfSale (commitPurchase db u i σ c L) σ' = soldOfSale db σ' := by
  unfold soldOfSale commitPurchase
  rw [find?_map_pred_eq (fun s => decide (s.id = σ')) (bumpSaleSold σ)
    (fun s => by simp only [(bumpSaleSold_id_total σ s).1]) db.sales]
  cases hr : db.sales.find? (fun s => decide (s.id = σ')) with
  | none => rfl
  | some sa =>
    have hk := List.find?_some hr
    simp only [decide_eq_true_eq] at hk
    rw [Option.map_some']
    show (bumpSaleSold σ sa).soldItems = sa.soldItems
    unfold bumpSaleSold
    rw [if_neg (by rw [hk]; exact h)]

/-- The commit increments the target sale's `sold_items` by exactly one. -/
theorem soldOfSale_commitPurchase_self (db : DBState) (u : String) (i σ : Int)
    (c : String) (L : Int) (sa : Sale)
    (hr : db.sales.find? (fun s => decide (s.id = σ)) = some sa) :
    soldOfSale (commitPurchase db u i σ c L) σ = sa.soldItems + 1 := by
  unfold soldOfSale commitPurchase
  rw [find?_map_pred_eq (fun s => decide (s.id = σ)) (bumpSaleSold σ)
    (fun s => by simp only [(bumpSaleSold_id_total σ s).1]) db.sales]
  have hk := List.find?_some hr
  simp only [decide_eq_true_eq] at hk
  rw [hr, Option.map_some']
  show (bumpSaleSold σ sa).soldItems = sa.soldItems + 1
  unfold bumpSaleSold
  rw [if_pos hk]

/-- The commit never changes any sale's `total_items`. -/
theorem totalOfSale_commitPurchase (db : DBState) (u : String) (i σ : Int)
    (c : String) (L : Int) (σ' : Int) :
    totalOfSale (commitPurchase db u i σ c L) σ' = totalOfSale db σ' := by
  unfold totalOfSale commitPurchase
  rw [find?_map_pred_eq (fun s => decide (s.id = σ')) (bumpSaleSold σ)
    (fun s => by simp only [(bumpSaleSold_id_total σ s).1]) db.sales]
  cases hr : db.sales.find? (fun s => decide (s.id = σ')) with
  | none => rfl
  | some sa =>
    rw [Option.map_some']
    show (bumpSaleSold σ sa).totalItems = sa.totalItems
    exact (bumpSaleSold_id_total σ sa).2

/-- Effect of the commit on any `(user, sale)` counter. -/
theorem countIn_commitPurchase (db : DBState) (u : String) (i σ : Int)
    (c : String) (L : Int) (u' : String) (σ' : Int) :
    countIn (commitPurchase db u i σ c L).userSaleLimits u' σ' =
      if u' = u ∧ σ' = σ then
        countIn (upsertUserSaleLimit db.userSaleLimits u σ L) u σ
      else countIn db.userSaleLimits u' σ' := by
  by_cases h : u' = u ∧ σ' = σ
  · rw [if_pos h]
    obtain ⟨h1, h2⟩ := h
    subst h1; subst h2
    rfl
  · rw [if_neg h]
    exact countIn_upsert_other db.userSaleLimits u u' σ σ' L h

/-- Inversion of a successful purchase transaction: it ran on healthy
infrastructure, found the item row unsold, the sale row active, unexpired and
under capacity, the user under the limit, and committed exactly
`commitPurchase`, returning the item marked sold. -/
theorem execTx_ok_inv {db : DBState} {u : String} {i σ : Int} {c : String}
    {L now : Int} {txe : Bool} {db' : DBState} {it : Item}
    (h : executePurchaseTransaction db u i σ c L now txe = .ok (db', it)) :
    txe = false ∧
    ∃ row, db.items.find? (fun r => decide (r.id = i) && decide (r.saleId = σ)) = some row ∧
      row.isSold = false ∧
      ∃ sale, db.sales.find? (fun s => decide (s.id = σ)) = some sale ∧
        sale.isActive = true ∧ now ≤ sale.endTime ∧
        sale.soldItems < sale.totalItems ∧
        countIn db.userSaleLimits u σ < L ∧
        it = { row with isSold := true } ∧
        db' = commitPurchase db u i σ c L := by
  unfold executePurchaseTransaction at h
  split at h
  · exact Except.noConfusion h
  · rename_i htxe
    split at h
    · exact Except.noConfusion h
    · rename_i row hfind
      split at h
      · exact Except.noConfusion h
      · rename_i hsold
        split at h
        · exact Except.noConfusion h
        · rename_i sale hsale
          split at h
          · exact Except.noConfusion h
          · rename_i hact
            split at h
            · exact Except.noConfusion h
            · rename_i hcap
              split at h
              · exact Except.noConfusion h
              · rename_i hcnt
                simp only [Bool.or_eq_true, Bool.not_eq_true', decide_eq_true_eq,
                  not_or] at hact
                simp only [decide_eq_true_eq, not_le] at hcap hcnt
                simp only [Except.ok.injEq, Prod.mk.injEq] at h
                refine ⟨(Bool.not_eq_true txe) ▸ htxe, row, hfind,
                  (Bool.not_eq_true row.isSold) ▸ hsold, sale, hsale,
                  (Bool.not_eq_false sale.isActive) ▸ hact.1,
                  le_of_not_lt hact.2, hcap, hcnt,
                  h.2.symm, h.1.symm⟩

/-- A transaction on healthy infrastructure that finds all guards green
commits and succeeds. -/
theorem execTx_ok_of {db : DBState} {u : String} {i σ : Int} {c : String}
    {L now : Int} {row : Item} {sale : Sale}
    (hrow : db.items.find? (fun r => decide (r.id = i) && decide (r.saleId = σ)) = some row)
    (hsold : row.isSold = false)
    (hsale : db.sales.find? (fun s => decide (s.id = σ)) = some sale)
    (hact : sale.isActive = true) (hend : now ≤ sale.endTime)
    (hcap : sale.soldItems < sale.totalItems)
    (hcnt : countIn db.userSaleLimits u σ < L) :
    executePurchaseTransaction db u i σ c L now false =
      .ok (commitPurchase db u i σ c L, { row with isSold := true }) := by
  unfold executePurchaseTransaction
  rw [if_neg (by exact Bool.false_ne_true)]
  simp only [hrow, hsold, hsale, hact, Bool.false_eq_true, if_false, Bool.not_true,
    Bool.false_or, decide_eq_true_eq, getUserPurchaseCountForSale]
  rw [if_neg (not_lt.mpr hend), if_neg (not_le.mpr hcap), if_neg (not_le.mpr hcnt)]

/-- A transaction that finds the item row already sold fails with the
`ErrDBItemAlreadySold` sentinel. -/
theorem execTx_already_sold {db : DBState} {u : String} {i σ : Int} {c : String}
    {L now : Int} {row : Item}
    (hrow : db.items.find? (fun r => decide (r.id = i) && decide (r.saleId = σ)) = some row)
    (hsold : row.isSold = true) :
    executePurchaseTransaction db u i σ c L now false = .error .itemAlreadySold := by
  unfold executePurchaseTransaction
  rw [if_neg (by exact Bool.false_ne_true)]
  simp only [hrow, hsold]
  rw [if_pos trivial]

/-- A transaction that passes the item check but finds the sale at capacity
fails with the `ErrDBSaleLimitReached` sentinel — even though the item row
itself was still unsold. -/
theorem execTx_sale_cap {db : DBState} {u : String} {i σ : Int} {c : String}
    {L now : Int} {row : Item} {sale : Sale}
    (hrow : db.items.find? (fun r => decide (r.id = i) && decide (r.saleId = σ)) = some row)
    (hsold : row.isSold = false)
    (hsale : db.sales.find? (fun s => decide (s.id = σ)) = some sale)
    (hact : sale.isActive = true) (hend : now ≤ sale.endTime)
    (hcap : sale.soldItems ≥ sale.totalItems) :
    executePurchaseTransaction db u i σ c L now false = .error .saleLimitReached := by
  unfold executePurchaseTransaction
  rw [if_neg (by exact Bool.false_ne_true)]
  simp only [hrow, hsold, hsale, hact, Bool.false_eq_true, if_false, Bool.not_true,
    Bool.false_or, decide_eq_true_eq]
  rw [if_neg (not_lt.mpr hend), if_pos hcap]

/-- A transaction that passes the item and sale checks but finds the user at
the per-sale limit fails with the `ErrDBUserPurchaseLimitReached` sentinel. -/
theorem execTx_user_cap {db : DBState} {u : String} {i σ : Int} {c : String}
    {L now : Int} {row : Item} {sale : Sale}
    (hrow : db.items.find? (fun r => decide (r.id = i) && decide (r.saleId = σ)) = some row)
    (hsold : row.isSold = false)
    (hsale : db.sales.find? (fun s => decide (s.id = σ)) = some sale)
    (hact : sale.isActive = true) (hend : now ≤ sale.endTime)
    (hcap : sale.soldItems < sale.totalItems)
    (hcnt : countIn db.userSaleLimits u σ ≥ L) :
    executePurchaseTransaction db u i σ c L now false = .error .userPurchaseLimitReached := by
  unfold executePurchaseTransaction
  rw [if_neg (by exact Bool.false_ne_true)]
  simp only [hrow, hsold, hsale, hact, Bool.false_eq_true, if_false, Bool.not_true,
    Bool.false_or, decide_eq_true_eq, getUserPurchaseCountForSale]
  rw [if_neg (not_lt.mpr hend), if_neg (not_le.mpr hcap), if_pos hcnt]

/-- The under-lock sale re-check: a transaction that finds the item row
unsold but the sale inactive or past its end time fails with the generic
(non-sentinel) error `"sale is not active or has ended"`. -/
theorem execTx_sale_recheck {db : DBState} {u : String} {i σ : Int} {c : String}
    {L now : Int} {row : Item} {sale : Sale}
    (hrow : db.items.find? (fun r => decide (r.id = i) && decide (r.saleId = σ)) = some row)
    (hsold : row.isSold = false)
    (hsale : db.sales.find? (fun s => decide (s.id = σ)) = some sale)
    (hdead : sale.isActive = false ∨ now > sale.endTime) :
    executePurchaseTransaction db u i σ c L now false =
      .error (.other "sale is not active or has ended") := by
  unfold executePurchaseTransaction
  rw [if_neg (by exact Bool.false_ne_true)]
  simp only [hrow, hsold, hsale, Bool.false_eq_true, if_false]
  rw [if_pos (by
    cases hdead with
    | inl hi => simp only [hi, Bool.not_false, Bool.true_or]
    | inr ht => simp only [Bool.or_eq_true, decide_eq_true_eq]; right; exact ht)]

/-- Every error result of the transaction leaves every table observation
unchanged, because nothing is committed: the result carries no state at all.
Stated as: the transaction's only state-producing result is `.ok`. -/
theorem execTx_error_no_state {db : DBState} {u : String} {i σ : Int} {c : String}
    {L now : Int} {txe : Bool} {e : DBErr}
    (h : executePurchaseTransaction db u i σ c L now txe = .error e) :
    ∀ db' it, executePurchaseTransaction db u i σ c L now txe ≠ .ok (db', it) := by
  intro db' it hok
  rw [h] at hok
  exact Except.noConfusion hok

/-- Unfolding `ProcessPurchase` once phase A has resolved an attempt. -/
theorem processPurchase_eq_of_phaseA {s : SysState} {code : String}
    {nowA nowB : Int} {f : PurchaseFaults} {a : CheckoutAttempt}
    (hA : getValidCheckoutAttempt s code nowA f = .ok a) :
    processPurchase s code nowA nowB f =
      match executePurchaseTransaction s.db a.userId a.itemId a.saleId a.id
          userMaxItemsPerSale nowB f.txErr with
      | .error .itemAlreadySold => .error .itemNotFoundOrSold
      | .error .saleLimitReached => .error .saleLimitReached
      | .error .userPurchaseLimitReached => .error .userLimitReached
      | .error (.other _) => .error .purchaseFailed
      | .ok (db', item) =>
        .ok ({ db := db',
               cache := if f.redisDelErr then s.cache
                        else deleteCheckoutCode s.cache code }, item) := by
  unfold processPurchase
  rw [hA]

/-- A phase A failure short-circuits `ProcessPurchase`: the allocation
transaction is never entered and the phase A error is returned as is. -/
theorem processPurchase_eq_of_phaseA_err {s : SysState} {code : String}
    {nowA nowB : Int} {f : PurchaseFaults} {e : ServiceError}
    (hA : getValidCheckoutAttempt s code nowA f = .error e) :
    processPurchase s code nowA nowB f = .error e := by
  unfold processPurchase
  rw [hA]

/-- Inversion of a successful `ProcessPurchase`: phase A resolved an attempt
and the allocation transaction committed, producing the returned state. -/
theorem processPurchase_ok_inv {s : SysState} {code : String} {nowA nowB : Int}
    {f : PurchaseFaults} {s' : SysState} {it : Item}
    (h : processPurchase s code nowA nowB f = .ok (s', it)) :
    ∃ a, getValidCheckoutAttempt s code nowA f = .ok a ∧
      executePurchaseTransaction s.db a.userId a.itemId a.saleId a.id
        userMaxItemsPerSale nowB f.txErr = .ok (s'.db, it) := by
  cases hA : getValidCheckoutAttempt s code nowA f with
  | error e =>
    rw [processPurchase_eq_of_phaseA_err hA] at h
    exact Except.noConfusion h
  | ok a =>
    rw [processPurchase_eq_of_phaseA hA] at h
    refine ⟨a, rfl, ?_⟩
    cases hT : executePurchaseTransaction s.db a.userId a.itemId a.saleId a.id
        userMaxItemsPerSale nowB f.txErr with
    | error e =>
      cases e <;> (simp only [hT] at h; exact Except.noConfusion h)
    | ok p =>
      obtain ⟨db', item⟩ := p
      simp only [hT] at h
      simp only [Except.ok.injEq, Prod.mk.injEq] at h
      obtain ⟨h1, h2⟩ := h
      subst h1
      subst h2
      rfl

/-- Facts observable from one successful purchase: the allocated item was
unsold before and is sold after; the sale had spare capacity before and its
counter rose by exactly one; every other sale's counter, every sale's
capacity, and every already-sold item are untouched. -/
theorem processPurchase_ok_facts {s : SysState} {code : String} {nowA nowB : Int}
    {f : PurchaseFaults} {s' : SysState} {it : Item}
    (h : processPurchase s code nowA nowB f = .ok (s', it)) :
    ¬ itemSold s.db it.id ∧ itemSold s'.db it.id ∧
    soldOfSale s.db it.saleId < totalOfSale s.db it.saleId ∧
    soldOfSale s'.db it.saleId = soldOfSale s.db it.saleId + 1 ∧
    (∀ σ', σ' ≠ it.saleId → soldOfSale s'.db σ' = soldOfSale s.db σ') ∧
    (∀ σ', totalOfSale s'.db σ' = totalOfSale s.db σ') ∧
    (∀ j, itemSold s.db j → itemSold s'.db j) := by
  obtain ⟨a, hA, hT⟩ := processPurchase_ok_inv h
  obtain ⟨htxe, row, hrow, hsold, sale, hsale, hact, hend, hcap, hcnt, hit, hdb⟩ :=
    execTx_ok_inv hT
  have hpred := List.find?_some hrow
  simp only [Bool.and_eq_true, decide_eq_true_eq] at hpred
  have hid : it.id = a.itemId := by rw [hit]; exact hpred.1
  have hsid : it.saleId = a.saleId := by rw [hit]; exact hpred.2
  have hrowid : row.id = it.id := by rw [hid]; exact hpred.1
  have hsoldpre : soldOfSale s.db it.saleId = sale.soldItems := by
    unfold soldOfSale
    rw [hsid, hsale]
  have htotpre : totalOfSale s.db it.saleId = sale.totalItems := by
    unfold totalOfSale
    rw [hsid, hsale]
  refine ⟨?_, ?_, ?_, ?_, ?_, ?_, ?_⟩
  · intro hS
    have := hS row (List.mem_of_find?_eq_some hrow) hrowid
    rw [hsold] at this
    exact Bool.false_ne_true this
  · rw [hdb, hid]
    exact itemSold_commitPurchase_self s.db a.userId a.itemId a.saleId a.id
      userMaxItemsPerSale
  · rw [hsoldpre, htotpre]
    exact hcap
  · rw [hdb, hsid]
    have hsoldpre' : soldOfSale s.db a.saleId = sale.soldItems := by
      unfold soldOfSale
      rw [hsale]
    rw [hsoldpre']
    exact soldOfSale_commitPurchase_self s.db a.userId a.itemId a.saleId a.id
      userMaxItemsPerSale sale hsale
  · intro σ' hne
    rw [hdb]
    exact soldOfSale_commitPurchase_other s.db a.userId a.itemId a.saleId a.id
      userMaxItemsPerSale σ' (by rw [← hsid]; exact hne)
  · intro σ'
    rw [hdb]
    exact totalOfSale_commitPurchase s.db a.userId a.itemId a.saleId a.id
      userMaxItemsPerSale σ'
  · intro j hj
    rw [hdb]
    exact itemSold_commitPurchase_mono s.db a.userId a.itemId a.saleId a.id
      userMaxItemsPerSale j hj

/-- A successful purchase keeps every `(user, sale)` counter at or below the
per-user limit, provided it was there before. -/
theorem processPurchase_ok_count_le {s : SysState} {code : String}
    {nowA nowB : Int} {f : PurchaseFaults} {s' : SysState} {it : Item}
    (h : processPurchase s code nowA nowB f = .ok (s', it)) (u' : String) (σ' : Int)
    (hle : countIn s.db.userSaleLimits u' σ' ≤ userMaxItemsPerSale) :
    countIn s'.db.userSaleLimits u' σ' ≤ userMaxItemsPerSale := by
  obtain ⟨a, hA, hT⟩ := processPurchase_ok_inv h
  obtain ⟨htxe, row, hrow, hsold, sale, hsale, hact, hend, hcap, hcnt, hit, hdb⟩ :=
    execTx_ok_inv hT
  rw [hdb, countIn_commitPurchase]
  by_cases hkey : u' = a.userId ∧ σ' = a.saleId
  · rw [if_pos hkey]
    refine countIn_upsert_le s.db.userSaleLimits a.userId a.saleId ?_
    rw [← hkey.1, ← hkey.2]
    exact hle
  · rw [if_neg hkey]
    exact hle

/-- One trace step is either a failure returning the unchanged state, or a
successful `ProcessPurchase`. -/
theorem applyPurchase_cases (s : SysState) (r : PurchaseReq) :
    (∃ e, applyPurchase s r = (s, .error e)) ∨
    (∃ s' it, processPurchase s r.code r.nowA r.nowB r.faults = .ok (s', it) ∧
      applyPurchase s r = (s', .ok it)) := by
  unfold applyPurchase
  cases h : processPurchase s r.code r.nowA r.nowB r.faults with
  | error e => exact .inl ⟨e, rfl⟩
  | ok p =>
    obtain ⟨s', it⟩ := p
    exact .inr ⟨s', it, rfl, rfl⟩

theorem runPurchases_cons (s : SysState) (r : PurchaseReq) (rest : List PurchaseReq) :
    runPurchases s (r :: rest) =
      ((runPurchases (applyPurchase s r).1 rest).1,
       (applyPurchase s r).2 :: (runPurchases (applyPurchase s r).1 rest).2) := rfl

/-- A sold item stays sold across one purchase attempt, which therefore
cannot be a success for that item. -/
theorem applyPurchase_itemSold_mono (s : SysState) (r : PurchaseReq) (i : Int)
    (hs : itemSold s.db i) :
    itemSold ((applyPurchase s r).1).db i ∧
    isSuccessForItem i (applyPurchase s r).2 = false := by
  rcases applyPurchase_cases s r with ⟨e, heq⟩ | ⟨s', it, hok, heq⟩
  · rw [heq]
    exact ⟨hs, rfl⟩
  · rw [heq]
    obtain ⟨hnot, _, _, _, _, _, hmono⟩ := processPurchase_ok_facts hok
    refine ⟨hmono i hs, ?_⟩
    simp only [isSuccessForItem, decide_eq_false_iff_not]
    intro hid
    exact hnot (hid ▸ hs)

/-- Once an item is sold, no later attempt in a trace ever succeeds for it,
and it remains sold at the end. -/
theorem runPurchases_sold_zero {s : SysState} {i : Int} (rs : List PurchaseReq)
    (hs : itemSold s.db i) :
    itemSold ((runPurchases s rs).1).db i ∧
    succCountForItem (runPurchases s rs).2 i = 0 := by
  induction rs generalizing s with
  | nil => exact ⟨hs, rfl⟩
  | cons r rest ih =>
    obtain ⟨h1, h2⟩ := applyPurchase_itemSold_mono s r i hs
    obtain ⟨ih1, ih2⟩ := ih h1
    rw [runPurchases_cons]
    refine ⟨ih1, ?_⟩
    unfold succCountForItem at ih2 ⊢
    rw [List.countP_cons, h2]
    simpa using ih2

/-- At most one attempt in any trace of purchase attempts succeeds for a
given item id. -/
theorem succCountForItem_le_one (s : SysState) (rs : List PurchaseReq) (i : Int) :
    succCountForItem (runPurchases s rs).2 i ≤ 1 := by
  induction rs generalizing s with
  | nil => exact Nat.zero_le 1
  | cons r rest ih =>
    rw [runPurchases_cons]
    unfold succCountForItem
    rw [List.countP_cons]
    cases hsucc : isSuccessForItem i (applyPurchase s r).2 with
    | false =>
      simpa using ih (applyPurchase s r).1
    | true =>
      rcases applyPurchase_cases s r with ⟨e, heq⟩ | ⟨s', it, hok, heq⟩
      · rw [heq] at hsucc
        exact absurd hsucc (by simp [isSuccessForItem])
      · have hid : it.id = i := by
          rw [heq] at hsucc
          simpa [isSuccessForItem] using hsucc
        have hsold' : itemSold ((applyPurchase s r).1).db i := by
          rw [heq]
          exact hid ▸ (processPurchase_ok_facts hok).2.1
        have hzero := (runPurchases_sold_zero rest hsold').2
        unfold succCountForItem at hzero
        rw [hzero]
        simp

/-- Per-step accounting for a sale's `sold_items` counter and capacity. -/
theorem applyPurchase_sale_step (s : SysState) (r : PurchaseReq) (σ : Int) :
    soldOfSale ((applyPurchase s r).1).db σ =
      soldOfSale s.db σ +
        (if isSuccessForSale σ (applyPurchase s r).2 = true then 1 else 0) ∧
    totalOfSale ((applyPurchase s r).1).db σ = totalOfSale s.db σ ∧
    (soldOfSale s.db σ ≤ totalOfSale s.db σ →
      soldOfSale ((applyPurchase s r).1).db σ ≤ totalOfSale ((applyPurchase s r).1).db σ) := by
  rcases applyPurchase_cases s r with ⟨e, heq⟩ | ⟨s', it, hok, heq⟩
  · rw [heq]
    simp [isSuccessForSale]
  · rw [heq]
    obtain ⟨_, _, hcap, hbump, hother, htot, _⟩ := processPurchase_ok_facts hok
    by_cases hσ : it.saleId = σ
    · subst hσ
      have hsucc : isSuccessForSale it.saleId (Except.ok it) = true := by
        simp [isSuccessForSale]
      rw [hsucc]
      refine ⟨by rw [hbump]; simp, htot it.saleId, ?_⟩
      intro _
      rw [hbump, htot it.saleId]
      omega
    · have hsucc : isSuccessForSale σ (Except.ok it) = false := by
        simp only [isSuccessForSale, decide_eq_false_iff_not]
        intro hc
        exact hσ hc
      rw [hsucc]
      refine ⟨by rw [hother σ (fun hc => hσ hc.symm)]; simp, htot σ, ?_⟩
      intro hle
      rw [hother σ (fun hc => hσ hc.symm), htot σ]
      exact hle

/-- Trace-level accounting: the final `sold_items` of a sale is its initial
value plus the number of successful purchases against it; `total_items` never
moves; and `sold_items ≤ total_items` is preserved. -/
theorem runPurchases_sale_accounting (s : SysState) (rs : List PurchaseReq) (σ : Int) :
    soldOfSale ((runPurchases s rs).1).db σ =
      soldOfSale s.db σ + (succCountForSale (runPurchases s rs).2 σ : Int) ∧
    totalOfSale ((runPurchases s rs).1).db σ = totalOfSale s.db σ ∧
    (soldOfSale s.db σ ≤ totalOfSale s.db σ →
      soldOfSale ((runPurchases s rs).1).db σ ≤ totalOfSale ((runPurchases s rs).1).db σ) := by
  induction rs generalizing s with
  | nil =>
    refine ⟨by simp [runPurchases, succCountForSale], rfl, fun h => h⟩
  | cons r rest ih =>
    rw [runPurchases_cons]
    obtain ⟨hstep, hsteptot, hstepinv⟩ := applyPurchase_sale_step s r σ
    obtain ⟨ihs, iht, ihinv⟩ := ih (applyPurchase s r).1
    refine ⟨?_, by rw [iht, hsteptot], fun h => ihinv (hstepinv h)⟩
    unfold succCountForSale
    rw [List.countP_cons]
    unfold succCountForSale at ihs
    rw [ihs, hstep]
    cases hsucc : isSuccessForSale σ (applyPurchase s r).2
    · simp [hsucc]
    · simp [hsucc]
      ring

/-- Per-step preservation of the per-user counter bound. -/
theorem applyPurchase_count_le (s : SysState) (r : PurchaseReq) (u : String) (σ : Int)
    (h : countIn s.db.userSaleLimits u σ ≤ userMaxItemsPerSale) :
    countIn ((applyPurchase s r).1).db.userSaleLimits u σ ≤ userMaxItemsPerSale := by
  rcases applyPurchase_cases s r with ⟨e, heq⟩ | ⟨s', it, hok, heq⟩
  · rw [heq]
    exact h
  · rw [heq]
    exact processPurchase_ok_count_le hok u σ h

/-- Trace-level preservation of the per-user counter bound. -/
theorem runPurchases_count_le (s : SysState) (rs : List PurchaseReq) (u : String)
    (σ : Int) (h : countIn s.db.userSaleLimits u σ ≤ userMaxItemsPerSale) :
    countIn ((runPurchases s rs).1).db.userSaleLimits u σ ≤ userMaxItemsPerSale := by
  induction rs generalizing s with
  | nil => exact h
  | cons r rest ih =>
    rw [runPurchases_cons]
    exact ih (applyPurchase s r).1 (applyPurchase_count_le s r u σ h)

/-- A cache hit short-circuits resolution: the durable store is not consulted. -/
theorem resolveAttempt_cache_hit {s : SysState} {code : String} {f : PurchaseFaults}
    {a : CheckoutAttempt} (hf : f.redisGetErr = false)
    (hc : getCheckoutAttempt s.cache code = some a) :
    resolveAttempt s code f = .ok a := by
  unfold resolveAttempt
  simp only [hf, Bool.false_eq_true, if_false, hc]

/-- A cache miss or cache read error falls back to the durable store: the
result is exactly what the durable row dictates. -/
theorem resolveAttempt_fallback {s : SysState} {code : String} {f : PurchaseFaults}
    (hmiss : f.redisGetErr = true ∨ getCheckoutAttempt s.cache code = none)
    (hferr : f.dbGetAttemptErr = false) :
    resolveAttempt s code f =
      match getCheckoutAttemptByID s.db code with
      | none => .error .checkoutCodeInvalid
      | some a => .ok a := by
  unfold resolveAttempt
  have hcached : (if f.redisGetErr = true then none
      else getCheckoutAttempt s.cache code) = none := by
    cases hmiss with
    | inl h => rw [if_pos h]
    | inr h =>
      by_cases hg : f.redisGetErr = true
      · rw [if_pos hg]
      · rw [if_neg hg]; exact h
  rw [hcached]
  simp only [hferr, Bool.false_eq_true, if_false]

/-- `TokenInvalid` arises only when the cache yielded nothing (miss or error)
and the durable store has no row either. -/
theorem resolveAttempt_invalid_inv {s : SysState} {code : String} {f : PurchaseFaults}
    (h : resolveAttempt s code f = .error .checkoutCodeInvalid) :
    (f.redisGetErr = true ∨ getCheckoutAttempt s.cache code = none) ∧
    f.dbGetAttemptErr = false ∧ getCheckoutAttemptByID s.db code = none := by
  unfold resolveAttempt at h
  cases hc : (if f.redisGetErr = true then none else getCheckoutAttempt s.cache code :
      Option CheckoutAttempt) with
  | some a =>
    simp only [hc] at h
    exact Except.noConfusion h
  | none =>
    simp only [hc] at h
    by_cases hferr : f.dbGetAttemptErr = true
    · rw [if_pos hferr] at h
      exact absurd (Except.error.inj h) (by simp)
    · rw [if_neg hferr] at h
      cases hdb : getCheckoutAttemptByID s.db code with
      | none =>
        refine ⟨?_, Bool.not_eq_true f.dbGetAttemptErr ▸ hferr, rfl⟩
        by_cases hg : f.redisGetErr = true
        · exact .inl hg
        · right
          have := hc
          rw [if_neg hg] at this
          exact this
      | some a =>
        simp only [hdb] at h
        exact Except.noConfusion h

/-- An error from resolution propagates unchanged through phase A. -/
theorem getValid_err_of_resolve {s : SysState} {code : String} {now : Int}
    {f : PurchaseFaults} {e : ServiceError}
    (h : resolveAttempt s code f = .error e) :
    getValidCheckoutAttempt s code now f = .error e := by
  unfold getValidCheckoutAttempt
  simp only [h]

/-- A resolved attempt already marked used fails with `TokenAlreadyUsed`,
before the expiry or sale checks are even reached. -/
theorem getValid_used {s : SysState} {code : String} {now : Int}
    {f : PurchaseFaults} {a : CheckoutAttempt}
    (hres : resolveAttempt s code f = .ok a) (hused : a.isUsed = true) :
    getValidCheckoutAttempt s code now f = .error .checkoutCodeAlreadyUsed := by
  unfold getValidCheckoutAttempt
  simp only [hres]
  unfold validateAttempt
  simp only [hused, if_true]

/-- A resolved, unused attempt past its expiry fails with `TokenExpired`. -/
theorem getValid_expired {s : SysState} {code : String} {now : Int}
    {f : PurchaseFaults} {a : CheckoutAttempt}
    (hres : resolveAttempt s code f = .ok a) (hused : a.isUsed = false)
    (hexp : now > a.expiresAt) :
    getValidCheckoutAttempt s code now f = .error .checkoutCodeExpired := by
  unfold getValidCheckoutAttempt
  simp only [hres]
  unfold validateAttempt
  simp only [hused, Bool.false_eq_true, if_false]
  rw [if_pos (by simp only [decide_eq_true_eq]; exact hexp)]

/-- A resolved, unused, unexpired attempt whose sale fetch fails or finds no
row yields `SaleNotActive`. -/
theorem getValid_sale_missing {s : SysState} {code : String} {now : Int}
    {f : PurchaseFaults} {a : CheckoutAttempt}
    (hres : resolveAttempt s code f = .ok a) (hused : a.isUsed = false)
    (hexp : now ≤ a.expiresAt)
    (hnone : (if f.dbGetSaleErr = true then none else getSaleByID s.db a.saleId) = none) :
    getValidCheckoutAttempt s code now f = .error .saleNotActive := by
  unfold getValidCheckoutAttempt
  simp only [hres]
  unfold validateAttempt
  simp only [hused, Bool.false_eq_true, if_false]
  rw [if_neg (by simp only [decide_eq_true_eq]; omega), hnone]

/-- A resolved, unused, unexpired attempt whose sale is inactive or outside
its (closed) window yields `SaleNotActive`. -/
theorem getValid_sale_dead {s : SysState} {code : String} {now : Int}
    {f : PurchaseFaults} {a : CheckoutAttempt} {sale : Sale}
    (hres : resolveAttempt s code f = .ok a) (hused : a.isUsed = false)
    (hexp : now ≤ a.expiresAt) (hferr : f.dbGetSaleErr = false)
    (hsale : getSaleByID s.db a.saleId = some sale)
    (hdead : sale.isActive = false ∨ now > sale.endTime ∨ now < sale.startTime) :
    getValidCheckoutAttempt s code now f = .error .saleNotActive := by
  unfold getValidCheckoutAttempt
  simp only [hres]
  unfold validateAttempt
  simp only [hused, Bool.false_eq_true, if_false, hferr, hsale]
  rw [if_neg (by simp only [decide_eq_true_eq]; omega)]
  rw [if_pos (by
    simp only [Bool.or_eq_true, Bool.not_eq_true', decide_eq_true_eq]
    tauto)]

/-- Phase A succeeds on a resolved, unused, unexpired attempt whose sale is
active and whose closed window contains `now`. -/
theorem getValid_ok_of {s : SysState} {code : String} {now : Int}
    {f : PurchaseFaults} {a : CheckoutAttempt} {sale : Sale}
    (hres : resolveAttempt s code f = .ok a) (hused : a.isUsed = false)
    (hexp : now ≤ a.expiresAt) (hferr : f.dbGetSaleErr = false)
    (hsale : getSaleByID s.db a.saleId = some sale)
    (hact : sale.isActive = true) (hstart : sale.startTime ≤ now)
    (hend : now ≤ sale.endTime) :
    getValidCheckoutAttempt s code now f = .ok a := by
  unfold getValidCheckoutAttempt
  simp only [hres]
  unfold validateAttempt
  simp only [hused, Bool.false_eq_true, if_false, hferr, hsale, hact,
    Bool.not_true, Bool.false_or]
  rw [if_neg (by simp only [decide_eq_true_eq]; omega)]
  rw [if_neg (by simp only [Bool.or_eq_true, decide_eq_true_eq]; omega)]

/-- The fold behind `ORDER BY ... LIMIT 1` only ever returns a row of the
list (or its accumulator). -/
theorem foldl_pickStep_mem (l : List Sale) : ∀ (acc : Option Sale) (x : Sale),
    l.foldl pickStep acc = some x → x ∈ l ∨ acc = some x := by
  induction l with
  | nil =>
    intro acc x h
    exact .inr h
  | cons a t ih =>
    intro acc x h
    rcases ih (pickStep acc a) x h with hmem | hacc
    · exact .inl (List.mem_cons_of_mem a hmem)
    · cases acc with
      | none =>
        simp only [pickStep] at hacc
        exact .inl ((Option.some.inj hacc) ▸ List.mem_cons_self a t)
      | some b =>
        simp only [pickStep] at hacc
        by_cases hgt : a.startTime > b.startTime
        · rw [if_pos hgt] at hacc
          exact .inl ((Option.some.inj hacc) ▸ List.mem_cons_self a t)
        · rw [if_neg hgt] at hacc
          exact .inr hacc

/-- A sale returned by `GetActiveSale` is a stored sale that is active and
whose closed window `[start_time, end_time]` contains `now`. -/
theorem getActiveSale_live {db : DBState} {now : Int} {sale : Sale}
    (h : getActiveSale db now = some sale) :
    sale ∈ db.sales ∧ sale.isActive = true ∧
    sale.startTime ≤ now ∧ now ≤ sale.endTime := by
  unfold getActiveSale pickLatestByStart at h
  rcases foldl_pickStep_mem _ none sale h with hmem | hacc
  · have hm := List.mem_filter.mp hmem
    have hl := hm.2
    unfold saleLive at hl
    simp only [Bool.and_eq_true, decide_eq_true_eq] at hl
    exact ⟨hm.1, hl.1.1, hl.1.2, hl.2⟩
  · exact Option.noConfusion hacc

/-- When no stored sale is live, `GetActiveSale` returns no row. -/
theorem getActiveSale_none {db : DBState} {now : Int}
    (h : ∀ sale ∈ db.sales, saleLive now sale = false) :
    getActiveSale db now = none := by
  unfold getActiveSale pickLatestByStart
  have hnil : db.sales.filter (saleLive now) = [] :=
    List.filter_eq_nil_iff.mpr (by intro a ha; simp [h a ha])
  rw [hnil]
  rfl

/-- `StartCheckout` fails with `SaleNotActive` exactly when the (healthy)
active-sale query returns no row. -/
theorem processCheckout_saleNotActive {s : SysState} {userId : String}
    {itemId now : Int} {newCode : String} {f : CheckoutFaults}
    (hf : f.dbGetSaleErr = false) (hnone : getActiveSale s.db now = none) :
    processCheckout s userId itemId now newCode f = .error .saleNotActive := by
  unfold processCheckout
  simp only [hf, Bool.false_eq_true, if_false, hnone]

theorem deactivateSaleRow_inactive (s : Sale) : (deactivateSaleRow s).isActive = false := by
  unfold deactivateSaleRow
  by_cases h : s.isActive = true
  · rw [if_pos h]
  · rw [if_neg h]
    exact Bool.not_eq_true s.isActive ▸ h

/-- After `DeactivateAllActiveSales` no stored sale is active. -/
theorem deactivateAll_all_inactive (db : DBState) :
    ∀ sa ∈ (deactivateAllActiveSales db).sales, sa.isActive = false := by
  intro sa hmem
  unfold deactivateAllActiveSales at hmem
  simp only [List.mem_map] at hmem
  obtain ⟨b, _, rfl⟩ := hmem
  exact deactivateSaleRow_inactive b

theorem deactivateIfId_keeps_inactive (σ : Int) (s : Sale) (h : s.isActive = false) :
    (deactivateIfId σ s).isActive = false := by
  unfold deactivateIfId
  by_cases hid : s.id = σ
  · rw [if_pos hid]
  · rw [if_neg hid]
    exact h

/-- The sale row created by a successful cycle. -/
def cycleSale (db : DBState) (now : Int) : Sale :=
  { id := (deactivateAllActiveSales db).nextSaleId, startTime := now,
    endTime := now + saleDuration, totalItems := (itemsPerSale : Int),
    soldItems := 0, isActive := true }

theorem deactivateAll_filter_nil (db : DBState) :
    (deactivateAllActiveSales db).sales.filter (fun s => s.isActive) = [] :=
  List.filter_eq_nil_iff.mpr
    (fun a ha => by simp [deactivateAll_all_inactive db a ha])

/-- Sales table after a cycle whose deactivations succeeded and whose sale
creation and provisioning succeeded. -/
theorem manage_sales_ok (db : DBState) (now : Int) (b4 : Bool) :
    (manageHourlySaleCycle db now ⟨false, false, false, b4⟩).sales =
      (deactivateAllActiveSales db).sales ++ [cycleSale db now] := rfl

/-- Sales table after a cycle whose `CreateSale` failed. -/
theorem manage_sales_createErr (db : DBState) (now : Int) (b3 b4 : Bool) :
    (manageHourlySaleCycle db now ⟨false, true, b3, b4⟩).sales =
      (deactivateAllActiveSales db).sales := rfl

/-- Sales table after a cycle whose provisioning failed and whose
compensating deactivation succeeded. -/
theorem manage_sales_provisionErr (db : DBState) (now : Int) :
    (manageHourlySaleCycle db now ⟨false, false, true, false⟩).sales =
      ((deactivateAllActiveSales db).sales ++ [cycleSale db now]).map
        (deactivateIfId (cycleSale db now).id) := rfl

/-- Sales table after a cycle whose provisioning failed AND whose
compensating deactivation also failed: the fresh sale row stays as created,
active. -/
theorem manage_sales_provisionErr_deactErr (db : DBState) (now : Int) :
    (manageHourlySaleCycle db now ⟨false, false, true, true⟩).sales =
      (deactivateAllActiveSales db).sales ++ [cycleSale db now] := rfl

/-- A fully successful cycle leaves exactly one active sale: the fresh one,
with window `[now, now + saleDuration]` (whatever the unused
`deactivateNewErr` flag). -/
theorem manage_filter_ok (db : DBState) (now : Int) (b4 : Bool) :
    (manageHourlySaleCycle db now ⟨false, false, false, b4⟩).sales.filter
      (fun s => s.isActive) = [cycleSale db now] := by
  rw [manage_sales_ok, List.filter_append, deactivateAll_filter_nil]
  rfl

theorem manage_filter_createErr (db : DBState) (now : Int) (b3 b4 : Bool) :
    (manageHourlySaleCycle db now ⟨false, true, b3, b4⟩).sales.filter
      (fun s => s.isActive) = [] := by
  rw [manage_sales_createErr]
  exact deactivateAll_filter_nil db

/-- A cycle whose item provisioning failed but whose compensating
deactivation succeeded leaves no active sale at all. -/
theorem manage_filter_provisionErr (db : DBState) (now : Int) :
    (manageHourlySaleCycle db now ⟨false, false, true, false⟩).sales.filter
      (fun s => s.isActive) = [] := by
  rw [manage_sales_provisionErr]
  apply List.filter_eq_nil_iff.mpr
  intro a ha
  simp only [List.mem_map] at ha
  obtain ⟨b, hb, rfl⟩ := ha
  rcases List.mem_append.mp hb with hbo | hbn
  · simp [deactivateIfId_keeps_inactive _ b (deactivateAll_all_inactive db b hbo)]
  · have hbe : b = cycleSale db now := List.mem_singleton.mp hbn
    subst hbe
    unfold deactivateIfId
    rw [if_pos rfl]
    simp

/-- When the compensating deactivation fails too, the fresh (empty) sale is
the one active sale left behind. -/
theorem manage_filter_provisionErr_deactErr (db : DBState) (now : Int) :
    (manageHourlySaleCycle db now ⟨false, false, true, true⟩).sales.filter
      (fun s => s.isActive) = [cycleSale db now] := by
  rw [manage_sales_provisionErr_deactErr, List.filter_append,
    deactivateAll_filter_nil]
  rfl

/-- Once phase A returns an attempt, that attempt is exactly what resolution
produced. -/
theorem getValid_ok_attempt {s : SysState} {code : String} {now : Int}
    {f : PurchaseFaults} {a' : CheckoutAttempt}
    (h : getValidCheckoutAttempt s code now f = .ok a') :
    resolveAttempt s code f = .ok a' := by
  unfold getValidCheckoutAttempt at h
  cases hres : resolveAttempt s code f with
  | error e =>
    simp only [hres] at h
    exact Except.noConfusion h
  | ok a =>
    simp only [hres] at h
    unfold validateAttempt at h
    split at h
    · exact Except.noConfusion h
    · split at h
      · exact Except.noConfusion h
      · split at h
        · exact Except.noConfusion h
        · split at h
          · exact Except.noConfusion h
          · rw [Except.ok.inj h]

/-- `TokenInvalid` from phase A arises only from the resolution step: cache
miss or error together with an absent durable row. -/
theorem getValid_invalid_inv {s : SysState} {code : String} {now : Int}
    {f : PurchaseFaults}
    (h : getValidCheckoutAttempt s code now f = .error .checkoutCodeInvalid) :
    (f.redisGetErr = true ∨ getCheckoutAttempt s.cache code = none) ∧
    f.dbGetAttemptErr = false ∧ getCheckoutAttemptByID s.db code = none := by
  cases hres : resolveAttempt s code f with
  | error e =>
    rw [getValid_err_of_resolve hres] at h
    have he : e = ServiceError.checkoutCodeInvalid := Except.error.inj h
    subst he
    exact resolveAttempt_invalid_inv hres
  | ok a =>
    unfold getValidCheckoutAttempt at h
    simp only [hres] at h
    unfold validateAttempt at h
    split at h
    · exact absurd (Except.error.inj h) (by decide)
    · split at h
      · exact absurd (Except.error.inj h) (by decide)
      · split at h
        · exact absurd (Except.error.inj h) (by decide)
        · split at h
          · exact absurd (Except.error.inj h) (by decide)
          · exact Except.noConfusion h

/-! ## Concrete fixture states (used by witnesses and counterexamples) -/

/-- A sale: id 1, window `[0, 3600]`, capacity 10, nothing sold, active. -/
def sale1 : Sale := ⟨1, 0, 3600, 10, 0, true⟩

/-- An unsold item of `sale1`. -/
def item1 : Item := ⟨1, 1, "it", "url", false⟩

/-- Initial state: `sale1` with `item1`, empty cache. -/
def state0 : SysState := ⟨⟨[sale1], [item1], [], [], [], 2, 2⟩, []⟩

/-- The reservation produced by `StartCheckout` on `state0` at time 10 with
generated code `"tok"`. -/
def att1 : CheckoutAttempt := ⟨"tok", "u1", 1, 1, 310, false⟩

/-- State after that checkout: the reservation is durable and mirrored in
the cache. -/
def state1 : SysState :=
  ⟨⟨[sale1], [item1], [att1], [], [], 2, 2⟩, [(cacheKey "tok", att1)]⟩

/-- Faults for a purchase whose cache delete fails. -/
def pfDel : PurchaseFaults := ⟨false, false, false, false, true⟩

/-- State after a successful purchase of `"tok"` whose cache delete failed:
the stale, still-unused cache entry survives. -/
def state2 : SysState := (applyPurchase state1 ⟨"tok", 20, 20, pfDel⟩).1

/-- Like `state1` but with the item already sold (some other token won it):
a later attempt holding a valid reservation finds the item gone. -/
def item1sold : Item := ⟨1, 1, "it", "url", true⟩

def stateSold : SysState :=
  ⟨⟨[sale1], [item1sold], [att1], [], [], 2, 2⟩, [(cacheKey "tok", att1)]⟩

/-! ## Claim theorems -/

/-- **C1**: for every item, across all purchase attempts, at most one
`CompletePurchase` succeeds; the sold flag never reverses along a trace of
purchase attempts; and an attempt whose phase A passed but whose item row is
already sold fails with the `ItemAlreadySold` condition (surfaced by the
service as `ErrItemNotFoundOrSold`) without mutating the store. -/
theorem claim_item_at_most_once (s : SysState) (rs : List PurchaseReq) (i : Int) :
    succCountForItem (runPurchases s rs).2 i ≤ 1 ∧
    (itemSold s.db i → itemSold ((runPurchases s rs).1).db i) ∧
    (∀ code nowA nowB f a row,
      getValidCheckoutAttempt s code nowA f = Except.ok a →
      f.txErr = false →
      s.db.items.find? (fun r =>
        decide (r.id = a.itemId) && decide (r.saleId = a.saleId)) = some row →
      row.isSold = true →
      processPurchase s code nowA nowB f = .error .itemNotFoundOrSold ∧
      applyPurchase s ⟨code, nowA, nowB, f⟩ = (s, .error .itemNotFoundOrSold)) := by
  refine ⟨succCountForItem_le_one s rs i,
    fun hs => (runPurchases_sold_zero rs hs).1, ?_⟩
  intro code nowA nowB f a row hA hF hrow hsold
  have htx : executePurchaseTransaction s.db a.userId a.itemId a.saleId a.id
      userMaxItemsPerSale nowB f.txErr = .error .itemAlreadySold := by
    rw [hF]
    exact execTx_already_sold hrow hsold
  have hp : processPurchase s code nowA nowB f = .error .itemNotFoundOrSold := by
    rw [processPurchase_eq_of_phaseA hA, htx]
  refine ⟨hp, ?_⟩
  unfold applyPurchase
  rw [hp]

theorem claim_item_at_most_once_witness :
    processPurchase stateSold "tok" 20 20 noPurchaseFaults =
      .error .itemNotFoundOrSold ∧
    succCountForItem
      (runPurchases stateSold [⟨"tok", 20, 20, noPurchaseFaults⟩]).2 1 ≤ 1 := by
  have h := claim_item_at_most_once stateSold [⟨"tok", 20, 20, noPurchaseFaults⟩] 1
  exact ⟨(h.2.2 "tok" 20 20 noPurchaseFaults att1 item1sold (by decide)
    (by decide) (by decide) (by decide)).1, h.1⟩

/-- **C2**: along any trace of purchase attempts, a sale's `sold_items` rises
by exactly one per success against it and its `total_items` never moves, so a
sale starting with `sold_items = 0 ≤ total_items = T` admits at most `T`
successes; and phase B re-checks `sold_items < total_items` under the sale
row lock, failing with `SaleLimitReached` when the count has reached the
total even though the target item row is still unsold. -/
theorem claim_sale_cap (s : SysState) (rs : List PurchaseReq) (σ : Int) :
    (soldOfSale ((runPurchases s rs).1).db σ =
      soldOfSale s.db σ + (succCountForSale (runPurchases s rs).2 σ : Int)) ∧
    (totalOfSale ((runPurchases s rs).1).db σ = totalOfSale s.db σ) ∧
    (soldOfSale s.db σ ≤ totalOfSale s.db σ →
      soldOfSale ((runPurchases s rs).1).db σ ≤
        totalOfSale ((runPurchases s rs).1).db σ) ∧
    (soldOfSale s.db σ = 0 → soldOfSale s.db σ ≤ totalOfSale s.db σ →
      (succCountForSale (runPurchases s rs).2 σ : Int) ≤ totalOfSale s.db σ) ∧
    (∀ code nowA nowB f a row sale,
      getValidCheckoutAttempt s code nowA f = Except.ok a →
      f.txErr = false → a.saleId = σ →
      s.db.items.find? (fun r =>
        decide (r.id = a.itemId) && decide (r.saleId = a.saleId)) = some row →
      row.isSold = false →
      s.db.sales.find? (fun x => decide (x.id = a.saleId)) = some sale →
      sale.isActive = true → nowB ≤ sale.endTime →
      sale.soldItems ≥ sale.totalItems →
      processPurchase s code nowA nowB f = .error .saleLimitReached) := by
  obtain ⟨hacct, htot, hinv⟩ := runPurchases_sale_accounting s rs σ
  refine ⟨hacct, htot, hinv, ?_, ?_⟩
  · intro h0 hle
    have := hinv hle
    rw [hacct, htot, h0] at this
    omega
  · intro code nowA nowB f a row sale hA hF hσ hrow hsold hsale hact hend hcap
    have htx : executePurchaseTransaction s.db a.userId a.itemId a.saleId a.id
        userMaxItemsPerSale nowB f.txErr = .error .saleLimitReached := by
      rw [hF]
      exact execTx_sale_cap hrow hsold hsale hact hend hcap
    rw [processPurchase_eq_of_phaseA hA, htx]

/-- A sale already at capacity, with its single item unsold and a valid
reservation held: the attempt is refused with `SaleLimitReached`. -/
def saleFull : Sale := ⟨1, 0, 3600, 1, 1, true⟩

def stateFull : SysState :=
  ⟨⟨[saleFull], [item1], [att1], [], [], 2, 2⟩, [(cacheKey "tok", att1)]⟩

theorem claim_sale_cap_witness :
    processPurchase stateFull "tok" 20 20 noPurchaseFaults =
      .error .saleLimitReached ∧
    (succCountForSale
      (runPurchases state0 [⟨"tok", 20, 20, noPurchaseFaults⟩]).2 1 : Int) ≤
      totalOfSale state0.db 1 := by
  constructor
  · exact (claim_sale_cap stateFull [] 1).2.2.2.2 "tok" 20 20 noPurchaseFaults
      att1 item1 saleFull (by decide) (by decide) (by decide) (by decide)
      (by decide) (by decide) (by decide) (by decide) (by decide)
  · exact (claim_sale_cap state0 [⟨"tok", 20, 20, noPurchaseFaults⟩] 1).2.2.2.1
      (by decide) (by decide)

/-- **C3**: the per-user counter for any `(user, sale)` pair never exceeds
the limit of 10 along any trace; the guarded upsert alone cannot push a
compliant counter past the limit; and once a user's counter has reached the
limit no further attempt by that user in that sale can succeed — an attempt
that passes every earlier check is refused with `UserLimitReached`. -/
theorem claim_user_cap (s : SysState) (rs : List PurchaseReq) (u : String) (σ : Int) :
    (countIn s.db.userSaleLimits u σ ≤ userMaxItemsPerSale →
      countIn ((runPurchases s rs).1).db.userSaleLimits u σ ≤ userMaxItemsPerSale) ∧
    (∀ ls, countIn ls u σ ≤ userMaxItemsPerSale →
      countIn (upsertUserSaleLimit ls u σ userMaxItemsPerSale) u σ ≤
        userMaxItemsPerSale) ∧
    (∀ code nowA nowB f a s' it,
      getValidCheckoutAttempt s code nowA f = Except.ok a →
      a.userId = u → a.saleId = σ →
      countIn s.db.userSaleLimits u σ ≥ userMaxItemsPerSale →
      processPurchase s code nowA nowB f ≠ .ok (s', it)) ∧
    (∀ code nowA nowB f a row sale,
      getValidCheckoutAttempt s code nowA f = Except.ok a →
      f.txErr = false → a.userId = u → a.saleId = σ →
      s.db.items.find? (fun r =>
        decide (r.id = a.itemId) && decide (r.saleId = a.saleId)) = some row →
      row.isSold = false →
      s.db.sales.find? (fun x => decide (x.id = a.saleId)) = some sale →
      sale.isActive = true → nowB ≤ sale.endTime →
      sale.soldItems < sale.totalItems →
      countIn s.db.userSaleLimits u σ ≥ userMaxItemsPerSale →
      processPurchase s code nowA nowB f = .error .userLimitReached) := by
  refine ⟨fun h => runPurchases_count_le s rs u σ h,
    fun ls h => countIn_upsert_le ls u σ h, ?_, ?_⟩
  · intro code nowA nowB f a s' it hA hu hσ hge hok
    obtain ⟨a', hA', hT⟩ := processPurchase_ok_inv hok
    have haa : a' = a := by
      rw [hA] at hA'
      exact (Except.ok.inj hA').symm
    subst haa
    obtain ⟨_, _, _, _, _, _, _, _, _, hcnt, _, _⟩ := execTx_ok_inv hT
    rw [hu, hσ] at hcnt
    omega
  · intro code nowA nowB f a row sale hA hF hu hσ hrow hsold hsale hact hend hcap hge
    have htx : executePurchaseTransaction s.db a.userId a.itemId a.saleId a.id
        userMaxItemsPerSale nowB f.txErr = .error .userPurchaseLimitReached := by
      rw [hF]
      exact execTx_user_cap hrow hsold hsale hact hend hcap (by rw [hu, hσ]; exact hge)
    rw [processPurchase_eq_of_phaseA hA, htx]

/-- A user already holding 10 items of the sale, with a valid reservation for
an unsold item: the attempt is refused with `UserLimitReached`. -/
def stateMaxed : SysState :=
  ⟨⟨[sale1], [item1], [att1], [], [⟨"u1", 1, 10⟩], 2, 2⟩, [(cacheKey "tok", att1)]⟩

theorem claim_user_cap_witness :
    processPurchase stateMaxed "tok" 20 20 noPurchaseFaults =
      .error .userLimitReached ∧
    countIn (upsertUserSaleLimit [⟨"u1", 1, 10⟩] "u1" 1 userMaxItemsPerSale)
      "u1" 1 ≤ userMaxItemsPerSale := by
  constructor
  · exact (claim_user_cap stateMaxed [] "u1" 1).2.2.2 "tok" 20 20 noPurchaseFaults
      att1 item1 sale1 (by decide) (by decide) (by decide) (by decide) (by decide)
      (by decide) (by decide) (by decide) (by decide) (by decide) (by decide)
  · exact (claim_user_cap state0 [] "u1" 1).2.1 [⟨"u1", 1, 10⟩] (by decide)

/-- **C4**: a failing `CompletePurchase` leaves the whole system state (the
durable store and the cache) unchanged — phase B mutations exist only inside
the transaction, visible solely through a committed `.ok` result — and a
phase A failure short-circuits: the allocation transaction is never entered. -/
theorem claim_failed_purchase_rollback (s : SysState) (code : String)
    (nowA nowB : Int) (f : PurchaseFaults) (e : ServiceError) :
    (processPurchase s code nowA nowB f = .error e →
      applyPurchase s ⟨code, nowA, nowB, f⟩ = (s, .error e)) ∧
    (getValidCheckoutAttempt s code nowA f = .error e →
      processPurchase s code nowA nowB f = .error e) := by
  constructor
  · intro h
    unfold applyPurchase
    rw [h]
  · intro h
    exact processPurchase_eq_of_phaseA_err h

theorem claim_failed_purchase_rollback_witness :
    applyPurchase state0 ⟨"nope", 0, 0, noPurchaseFaults⟩ =
      (state0, .error .checkoutCodeInvalid) ∧
    processPurchase state2 "tok" 30 30 noPurchaseFaults =
      .error .itemNotFoundOrSold := by
  constructor
  · exact (claim_failed_purchase_rollback state0 "nope" 0 0 noPurchaseFaults
      .checkoutCodeInvalid).1 (by decide)
  · decide

/-- **C5**: phase A resolves a token cache-first with durable fallback:
`TokenInvalid` arises only when both stores lack the token; a resolved token
already used yields `TokenAlreadyUsed` (checked before expiry — no expiry
hypothesis is needed); a resolved, unused token past its expiry yields
`TokenExpired`; a cache miss or error resolves from the durable store; and a
valid durable reservation passes phase A even when the cache lost the entry. -/
theorem claim_token_resolution (s : SysState) (code : String) (now : Int)
    (f : PurchaseFaults) (a : CheckoutAttempt) (sale : Sale) :
    (getValidCheckoutAttempt s code now f = .error .checkoutCodeInvalid →
      (f.redisGetErr = true ∨ getCheckoutAttempt s.cache code = none) ∧
      f.dbGetAttemptErr = false ∧ getCheckoutAttemptByID s.db code = none) ∧
    (resolveAttempt s code f = .ok a → a.isUsed = true →
      getValidCheckoutAttempt s code now f = .error .checkoutCodeAlreadyUsed) ∧
    (resolveAttempt s code f = .ok a → a.isUsed = false → now > a.expiresAt →
      getValidCheckoutAttempt s code now f = .error .checkoutCodeExpired) ∧
    ((f.redisGetErr = true ∨ getCheckoutAttempt s.cache code = none) →
      f.dbGetAttemptErr = false → getCheckoutAttemptByID s.db code = some a →
      resolveAttempt s code f = .ok a) ∧
    ((f.redisGetErr = true ∨ getCheckoutAttempt s.cache code = none) →
      f.dbGetAttemptErr = false → getCheckoutAttemptByID s.db code = some a →
      a.isUsed = false → now ≤ a.expiresAt →
      f.dbGetSaleErr = false → getSaleByID s.db a.saleId = some sale →
      sale.isActive = true → sale.startTime ≤ now → now ≤ sale.endTime →
      getValidCheckoutAttempt s code now f = .ok a) := by
  refine ⟨getValid_invalid_inv, getValid_used, getValid_expired, ?_, ?_⟩
  · intro hmiss hferr hdb
    rw [resolveAttempt_fallback hmiss hferr, hdb]
  · intro hmiss hferr hdb hused hexp hfs hsale hact hstart hend
    exact getValid_ok_of (by rw [resolveAttempt_fallback hmiss hferr, hdb])
      hused hexp hfs hsale hact hstart hend

/-- `state1` with the cache entry lost (crash or eviction): the durable
reservation alone still resolves. -/
def stateDbOnly : SysState := ⟨state1.db, []⟩

theorem claim_token_resolution_witness :
    ((noPurchaseFaults.redisGetErr = true ∨
        getCheckoutAttempt state0.cache "zzz" = none) ∧
      noPurchaseFaults.dbGetAttemptErr = false ∧
      getCheckoutAttemptByID state0.db "zzz" = none) ∧
    getValidCheckoutAttempt stateDbOnly "tok" 20 noPurchaseFaults =
      .ok att1 := by
  constructor
  · exact (claim_token_resolution state0 "zzz" 5 noPurchaseFaults att1 sale1).1
      (by decide)
  · exact (claim_token_resolution stateDbOnly "tok" 20 noPurchaseFaults att1
      sale1).2.2.2.2 (by decide) (by decide) (by decide) (by decide) (by decide)
      (by decide) (by decide) (by decide) (by decide) (by decide)

/-- **C6 counterexample**: the claim "every subsequent attempt with a spent
token fails with `TokenAlreadyUsed` in every reachable state" is false. The
run below checks out item 1 (code `"tok"`), completes the purchase with the
cache delete failing (a reachable state the claim explicitly includes), and
retries the same token: the stale cache entry still reads `used = false`, so
phase A passes and phase B answers `ItemAlreadySold` (surfaced as
`ErrItemNotFoundOrSold`) — not `TokenAlreadyUsed`. -/
theorem claim_token_single_use_counterexample :
    processCheckout state0 "u1" 1 10 "tok" noCheckoutFaults =
      .ok ("tok", state1) ∧
    processPurchase state1 "tok" 20 20 pfDel = .ok (state2, item1sold) ∧
    processPurchase state2 "tok" 30 30 noPurchaseFaults =
      .error .itemNotFoundOrSold ∧
    (ServiceError.itemNotFoundOrSold ≠ ServiceError.checkoutCodeAlreadyUsed) :=
  ⟨by decide, by decide, by decide, by decide⟩

/-- **C6 amended**: after a token's purchase has committed (the durable row
reads `used = true` and the item is sold), every subsequent attempt with that
token fails: with `TokenAlreadyUsed` whenever resolution reads the durable
record (cache entry absent or cache erroring); through a stale cache entry it
fails in phase B with `ItemAlreadySold` instead; in particular no subsequent
attempt ever succeeds again. -/
theorem claim_token_single_use_amended (s : SysState) (code : String)
    (nowA nowB : Int) (f : PurchaseFaults) (a : CheckoutAttempt) :
    ((f.redisGetErr = true ∨ getCheckoutAttempt s.cache code = none) →
      f.dbGetAttemptErr = false →
      getCheckoutAttemptByID s.db code = some a → a.isUsed = true →
      processPurchase s code nowA nowB f = .error .checkoutCodeAlreadyUsed) ∧
    (getValidCheckoutAttempt s code nowA f = .ok a →
      itemSold s.db a.itemId →
      (∃ row ∈ s.db.items, row.id = a.itemId ∧ row.saleId = a.saleId) →
      f.txErr = false →
      processPurchase s code nowA nowB f = .error .itemNotFoundOrSold) ∧
    (∀ s' it, getValidCheckoutAttempt s code nowA f = .ok a →
      itemSold s.db a.itemId →
      processPurchase s code nowA nowB f ≠ .ok (s', it)) := by
  refine ⟨?_, ?_, ?_⟩
  · intro hmiss hferr hdb hused
    apply processPurchase_eq_of_phaseA_err
    exact getValid_used (by rw [resolveAttempt_fallback hmiss hferr, hdb]) hused
  · intro hA hsold ⟨row, hmem, hid, hsid⟩ hF
    have hfind : (s.db.items.find? (fun r =>
        decide (r.id = a.itemId) && decide (r.saleId = a.saleId))).isSome := by
      rw [List.find?_isSome]
      exact ⟨row, hmem, by simp [hid, hsid]⟩
    obtain ⟨row', hrow'⟩ := Option.isSome_iff_exists.mp hfind
    have hpred := List.find?_some hrow'
    simp only [Bool.and_eq_true, decide_eq_true_eq] at hpred
    have hsold' : row'.isSold = true :=
      hsold row' (List.mem_of_find?_eq_some hrow') hpred.1
    have htx : executePurchaseTransaction s.db a.userId a.itemId a.saleId a.id
        userMaxItemsPerSale nowB f.txErr = .error .itemAlreadySold := by
      rw [hF]
      exact execTx_already_sold hrow' hsold'
    rw [processPurchase_eq_of_phaseA hA, htx]
  · intro s' it hA hsold hok
    obtain ⟨a', hA', hT⟩ := processPurchase_ok_inv hok
    have haa : a' = a := by
      rw [hA] at hA'
      exact (Except.ok.inj hA').symm
    subst haa
    obtain ⟨_, row, hrow, hrsold, _, _, _, _, _, _, _, _⟩ := execTx_ok_inv hT
    have hpred := List.find?_some hrow
    simp only [Bool.and_eq_true, decide_eq_true_eq] at hpred
    have := hsold row (List.mem_of_find?_eq_some hrow) hpred.1
    rw [hrsold] at this
    exact Bool.false_ne_true this

/-- State after a successful purchase of `"tok"` whose cache delete worked. -/
def state2clean : SysState :=
  (applyPurchase state1 ⟨"tok", 20, 20, noPurchaseFaults⟩).1

theorem claim_token_single_use_amended_witness :
    processPurchase state2clean "tok" 30 30 noPurchaseFaults =
      .error .checkoutCodeAlreadyUsed ∧
    processPurchase state2 "tok" 30 30 noPurchaseFaults =
      .error .itemNotFoundOrSold := by
  constructor
  · exact (claim_token_single_use_amended state2clean "tok" 30 30
      noPurchaseFaults ⟨"tok", "u1", 1, 1, 310, true⟩).1 (by decide) (by decide)
      (by decide) (by decide)
  · exact (claim_token_single_use_amended state2 "tok" 30 30
      noPurchaseFaults att1).2.1 (by decide) (by decide)
      ⟨item1sold, by decide, by decide, by decide⟩ (by decide)

/-- **C7 counterexample**: the claim says at most one sale is ever
simultaneously active and inside its window, and that a provisioning failure
always leaves the fresh sale deactivated. Neither survives the code's own
error handling. A cycle whose `DeactivateAllActiveSales` fails is only
logged and still creates the new active sale (part_000:289-293): run on a
state holding the active `sale1` at time 100, TWO sales are then active with
their windows containing 100. And when provisioning fails and the
compensating `DeactivateSaleByID` also fails (logged and swallowed,
part_000:336-338), the fresh sale — here sale id 2 — stays active while
owning not a single item row. -/
theorem claim_scheduler_single_active_counterexample :
    ((manageHourlySaleCycle state0.db 100 ⟨true, false, false, false⟩).sales.filter
      (fun s => s.isActive && decide (s.startTime ≤ (100 : Int)) &&
        decide ((100 : Int) ≤ s.endTime))).length = 2 ∧
    (manageHourlySaleCycle state0.db 100 ⟨false, false, true, true⟩).sales.filter
      (fun s => s.isActive) = [⟨2, 100, 3700, 10000, 0, true⟩] ∧
    (manageHourlySaleCycle state0.db 100 ⟨false, false, true, true⟩).items.filter
      (fun it => it.saleId = 2) = [] :=
  ⟨by decide, by decide, by decide⟩

/-- **C7 amended**: `DeactivateAllActiveSales` leaves no active sale, and
provided that deactivation succeeded, a cycle ends with at most one active
sale: exactly the fresh sale with window `[now, now + saleDuration]` when
creation and provisioning succeed, and none when provisioning fails and the
compensating deactivation succeeds. (When `DeactivateAllActiveSales` itself
fails the cycle still creates a second active sale, and when the
compensating deactivation fails the fresh sale stays active with incomplete
inventory — the error paths the counterexample exhibits.) -/
theorem claim_scheduler_single_active_amended (db : DBState) (now : Int)
    (f : SchedulerFaults) :
    (∀ sa ∈ (deactivateAllActiveSales db).sales, sa.isActive = false) ∧
    (f.deactivateAllErr = false →
      ((manageHourlySaleCycle db now f).sales.filter
        (fun s => s.isActive)).length ≤ 1) ∧
    (f.deactivateAllErr = false → f.createSaleErr = false →
      f.provisionErr = false →
      (manageHourlySaleCycle db now f).sales.filter (fun s => s.isActive) =
        [cycleSale db now]) ∧
    (f.deactivateAllErr = false → f.createSaleErr = false →
      f.provisionErr = true → f.deactivateNewErr = false →
      (manageHourlySaleCycle db now f).sales.filter (fun s => s.isActive) = []) := by
  obtain ⟨b1, b2, b3, b4⟩ := f
  refine ⟨deactivateAll_all_inactive db, ?_, ?_, ?_⟩
  · intro h1
    have h1' : b1 = false := h1
    subst h1'
    cases b2 with
    | true =>
      rw [manage_filter_createErr]
      simp
    | false =>
      cases b3 with
      | false =>
        rw [manage_filter_ok]
        simp
      | true =>
        cases b4 with
        | false =>
          rw [manage_filter_provisionErr]
          simp
        | true =>
          rw [manage_filter_provisionErr_deactErr]
          simp
  · intro h1 h2 h3
    have h1' : b1 = false := h1
    have h2' : b2 = false := h2
    have h3' : b3 = false := h3
    subst h1'
    subst h2'
    subst h3'
    exact manage_filter_ok db now b4
  · intro h1 h2 h3 h4
    have h1' : b1 = false := h1
    have h2' : b2 = false := h2
    have h3' : b3 = true := h3
    have h4' : b4 = false := h4
    subst h1'
    subst h2'
    subst h3'
    subst h4'
    exact manage_filter_provisionErr db now

theorem claim_scheduler_single_active_amended_witness :
    (⟨1, 0, 3600, 10, 0, false⟩ : Sale).isActive = false ∧
    ((manageHourlySaleCycle state0.db 7200 noSchedulerFaults).sales.filter
      (fun s => s.isActive)).length ≤ 1 ∧
    (manageHourlySaleCycle state0.db 7200 noSchedulerFaults).sales.filter
      (fun s => s.isActive) = [cycleSale state0.db 7200] ∧
    (manageHourlySaleCycle state0.db 7200 ⟨false, false, true, false⟩).sales.filter
      (fun s => s.isActive) = [] := by
  refine ⟨?_, ?_, ?_, ?_⟩
  · exact (claim_scheduler_single_active_amended state0.db 7200
      noSchedulerFaults).1 ⟨1, 0, 3600, 10, 0, false⟩ (by decide)
  · exact (claim_scheduler_single_active_amended state0.db 7200
      noSchedulerFaults).2.1 rfl
  · exact (claim_scheduler_single_active_amended state0.db 7200
      noSchedulerFaults).2.2.1 rfl rfl rfl
  · exact (claim_scheduler_single_active_amended state0.db 7200
      ⟨false, false, true, false⟩).2.2.2 rfl rfl rfl rfl

/-- **C8 counterexample**: the claim says the sale window is half-open
`[start, end)`, so a checkout at exactly the end time must fail with
`SaleNotActive`. It does not: `GetActiveSale` uses SQL `BETWEEN`, inclusive
on both bounds, so at `now = end_time = 3600` the sale is still returned and
the checkout succeeds. -/
theorem claim_checkout_window_counterexample :
    sale1 ∈ state0.db.sales ∧ sale1.isActive = true ∧ sale1.endTime = 3600 ∧
    getActiveSale state0.db 3600 = some sale1 ∧
    processCheckout state0 "u1" 1 3600 "tok" noCheckoutFaults =
      .ok ("tok", ⟨⟨[sale1], [item1], [⟨"tok", "u1", 1, 1, 3900, false⟩], [], [],
        2, 2⟩, [(cacheKey "tok", ⟨"tok", "u1", 1, 1, 3900, false⟩)]⟩) ∧
    processCheckout state0 "u1" 1 3600 "tok" noCheckoutFaults ≠
      .error .saleNotActive :=
  ⟨by decide, by decide, by decide, by decide, by decide, by decide⟩

/-- **C8 amended**: `StartCheckout` treats a sale as current exactly when its
active flag is true and now lies within the closed interval
`[start_time, end_time]` (SQL `BETWEEN` is inclusive); every checkout issued
when no active-flagged sale's closed window contains now — in particular any
checkout strictly after every active sale's end time — fails with
`SaleNotActive`. -/
theorem claim_checkout_window_amended (s : SysState) (userId : String)
    (itemId now : Int) (newCode : String) (f : CheckoutFaults) (sale : Sale) :
    (getActiveSale s.db now = some sale →
      sale ∈ s.db.sales ∧ sale.isActive = true ∧
      sale.startTime ≤ now ∧ now ≤ sale.endTime) ∧
    (f.dbGetSaleErr = false →
      (∀ sa ∈ s.db.sales, sa.isActive = true →
        ¬(sa.startTime ≤ now ∧ now ≤ sa.endTime)) →
      processCheckout s userId itemId now newCode f = .error .saleNotActive) := by
  constructor
  · exact getActiveSale_live
  · intro hf hdead
    apply processCheckout_saleNotActive hf
    apply getActiveSale_none
    intro sa hmem
    unfold saleLive
    by_cases hact : sa.isActive = true
    · have hw := hdead sa hmem hact
      rcases Decidable.not_and_iff_or_not.mp hw with h1 | h1
      · simp [h1]
      · simp [h1]
    · simp [Bool.not_eq_true sa.isActive ▸ hact]

theorem claim_checkout_window_amended_witness :
    (sale1 ∈ state0.db.sales ∧ sale1.isActive = true ∧
      sale1.startTime ≤ 100 ∧ (100 : Int) ≤ sale1.endTime) ∧
    processCheckout state0 "u1" 1 3601 "tok" noCheckoutFaults =
      .error .saleNotActive := by
  constructor
  · exact (claim_checkout_window_amended state0 "u1" 1 100 "tok"
      noCheckoutFaults sale1).1 (by decide)
  · exact (claim_checkout_window_amended state0 "u1" 1 3601 "tok"
      noCheckoutFaults sale1).2 (by decide) (by decide)

/-- A cache miss together with a durable-store failure on the fallback read
surfaces the wrapped generic error — not `TokenInvalid`, not `PurchaseFailed`. -/
theorem resolveAttempt_db_err {s : SysState} {code : String} {f : PurchaseFaults}
    (hmiss : f.redisGetErr = true ∨ getCheckoutAttempt s.cache code = none)
    (hferr : f.dbGetAttemptErr = true) :
    resolveAttempt s code f =
      .error (.wrapped "failed to query checkout attempt from DB") := by
  unfold resolveAttempt
  have hcached : (if f.redisGetErr = true then none
      else getCheckoutAttempt s.cache code) = none := by
    cases hmiss with
    | inl h => rw [if_pos h]
    | inr h =>
      by_cases hg : f.redisGetErr = true
      · rw [if_pos hg]
      · rw [if_neg hg]; exact h
  simp only [hcached, hferr, if_true]

/-- An infrastructure failure at any statement of the allocation transaction
yields a non-sentinel error (rollback; no state escapes). -/
theorem execTx_infra {db : DBState} {u : String} {i σ : Int} {c : String}
    {L now : Int} :
    executePurchaseTransaction db u i σ c L now true =
      .error (.other "transaction infrastructure failure") := by
  unfold executePurchaseTransaction
  rw [if_pos rfl]

/-- Inversion of a successful `ProcessCheckout`. -/
theorem processCheckout_ok_inv {s : SysState} {u : String} {i now : Int}
    {code c' : String} {f : CheckoutFaults} {s' : SysState}
    (h : processCheckout s u i now code f = .ok (c', s')) :
    f.dbGetSaleErr = false ∧ f.dbGetItemErr = false ∧ f.dbGetCountErr = false ∧
    f.genCodeErr = false ∧ f.dbInsertErr = false ∧
    ∃ sale, getActiveSale s.db now = some sale ∧
      (∃ item, getItemForCheckout s.db i sale.id = some item) ∧
      countIn s.db.userSaleLimits u sale.id < userMaxItemsPerSale ∧
      c' = code ∧
      s' = ⟨createCheckoutAttempt s.db ⟨code, u, i, sale.id, now + codeTTLExpiry, false⟩,
            if f.redisSetErr then s.cache
            else storeCheckoutCode s.cache
              ⟨code, u, i, sale.id, now + codeTTLExpiry, false⟩⟩ := by
  unfold processCheckout at h
  split at h
  · exact Except.noConfusion h
  · rename_i h1
    split at h
    · exact Except.noConfusion h
    · rename_i sale hsale
      split at h
      · exact Except.noConfusion h
      · rename_i h2
        split at h
        · exact Except.noConfusion h
        · rename_i item hitem
          split at h
          · exact Except.noConfusion h
          · rename_i h3
            split at h
            · exact Except.noConfusion h
            · rename_i h4
              split at h
              · exact Except.noConfusion h
              · rename_i h5
                split at h
                · exact Except.noConfusion h
                · rename_i h6
                  simp only [Except.ok.injEq, Prod.mk.injEq] at h
                  simp only [decide_eq_true_eq, not_le,
                    getUserPurchaseCountForSale] at h4
                  exact ⟨Bool.not_eq_true _ ▸ h1, Bool.not_eq_true _ ▸ h2,
                    Bool.not_eq_true _ ▸ h3, Bool.not_eq_true _ ▸ h5,
                    Bool.not_eq_true _ ▸ h6, sale, hsale, ⟨item, hitem⟩, h4,
                    h.1.symm, h.2.symm⟩

/-- A checkout on healthy read/write paths with a live sale, an available
item and a compliant user succeeds, persisting the reservation durably and
mirroring it into the cache only when the cache write works. -/
theorem processCheckout_ok_of {s : SysState} {u : String} {i now : Int}
    {code : String} {f : CheckoutFaults} {sale : Sale} {item : Item}
    (h1 : f.dbGetSaleErr = false) (hsale : getActiveSale s.db now = some sale)
    (h2 : f.dbGetItemErr = false)
    (hitem : getItemForCheckout s.db i sale.id = some item)
    (h3 : f.dbGetCountErr = false)
    (hcnt : countIn s.db.userSaleLimits u sale.id < userMaxItemsPerSale)
    (h5 : f.genCodeErr = false) (h6 : f.dbInsertErr = false) :
    processCheckout s u i now code f =
      .ok (code,
        ⟨createCheckoutAttempt s.db ⟨code, u, i, sale.id, now + codeTTLExpiry, false⟩,
         if f.redisSetErr then s.cache
         else storeCheckoutCode s.cache
           ⟨code, u, i, sale.id, now + codeTTLExpiry, false⟩⟩) := by
  unfold processCheckout
  simp only [h1, h2, h3, h5, h6, Bool.false_eq_true, if_false, hsale, hitem]
  rw [if_neg (by
    simp only [decide_eq_true_eq, not_le, getUserPurchaseCountForSale]
    exact hcnt)]

/-- Faults: the phase A sale fetch (a durable-store read) fails. -/
def pfSaleErr : PurchaseFaults := ⟨false, false, true, false, false⟩

/-- Faults: the durable fallback read of the token fails. -/
def pfAttErr : PurchaseFaults := ⟨false, true, false, false, false⟩

/-- **C9 counterexample**: the claim says every durable-store error at any
step of purchase resolution surfaces as `PurchaseFailed`. It does not:
with a valid reservation, a durable-store failure on the phase A sale fetch
yields `SaleNotActive`, and (with the cache entry lost) a durable-store
failure on the token fallback read yields the wrapped generic error —
neither is `PurchaseFailed`. -/
theorem claim_infra_errors_counterexample :
    processPurchase state1 "tok" 20 20 pfSaleErr = .error .saleNotActive ∧
    (ServiceError.saleNotActive ≠ ServiceError.purchaseFailed) ∧
    processPurchase stateDbOnly "tok" 20 20 pfAttErr =
      .error (.wrapped "failed to query checkout attempt from DB") ∧
    (ServiceError.wrapped "failed to query checkout attempt from DB" ≠
      ServiceError.purchaseFailed) :=
  ⟨by decide, by decide, by decide, by decide⟩

/-- **C9 amended**: infrastructure failures inside the allocation transaction
surface as `PurchaseFailed` with the state untouched, and a durable-write
failure during checkout surfaces as the `ReservationFailed` condition
(`ErrCheckoutFailed`); cache failures are never surfaced: a cache read error
behaves exactly like running without a cache, a cache write failure leaves
checkout's outcome unchanged (only the mirror is skipped), and a cache delete
failure leaves a successful purchase successful; but a durable-store READ
error during token resolution is not mapped to `PurchaseFailed`: the token
fallback read error surfaces as a wrapped generic error and the sale fetch
error as `SaleNotActive`. -/
theorem claim_infra_errors (s : SysState) (code userId newCode : String)
    (itemId nowA nowB now : Int) (f : PurchaseFaults) (a : CheckoutAttempt)
    (g1 g2 g3 g4 g5 : Bool) (f2 : CheckoutFaults) :
    (getValidCheckoutAttempt s code nowA f = .ok a → f.txErr = true →
      processPurchase s code nowA nowB f = .error .purchaseFailed ∧
      applyPurchase s ⟨code, nowA, nowB, f⟩ = (s, .error .purchaseFailed)) ∧
    (f2.dbGetSaleErr = false → f2.dbGetItemErr = false → f2.dbGetCountErr = false →
      f2.genCodeErr = false → f2.dbInsertErr = true →
      (∀ sale item, getActiveSale s.db now = some sale →
        getItemForCheckout s.db itemId sale.id = some item →
        countIn s.db.userSaleLimits userId sale.id < userMaxItemsPerSale →
        processCheckout s userId itemId now newCode f2 = .error .checkoutFailed)) ∧
    (getValidCheckoutAttempt s code nowA ⟨true, g2, g3, g4, g5⟩ =
      getValidCheckoutAttempt ⟨s.db, []⟩ code nowA ⟨false, g2, g3, g4, g5⟩) ∧
    (∀ c' s2, processCheckout s userId itemId now newCode
        ⟨f2.dbGetSaleErr, f2.dbGetItemErr, f2.dbGetCountErr, f2.genCodeErr,
         f2.dbInsertErr, false⟩ = .ok (c', s2) →
      processCheckout s userId itemId now newCode
        ⟨f2.dbGetSaleErr, f2.dbGetItemErr, f2.dbGetCountErr, f2.genCodeErr,
         f2.dbInsertErr, true⟩ = .ok (c', ⟨s2.db, s.cache⟩)) ∧
    (∀ s2 it, processPurchase s code nowA nowB ⟨g1, g2, g3, g4, false⟩ =
        .ok (s2, it) →
      processPurchase s code nowA nowB ⟨g1, g2, g3, g4, true⟩ =
        .ok (⟨s2.db, s.cache⟩, it)) ∧
    ((f.redisGetErr = true ∨ getCheckoutAttempt s.cache code = none) →
      f.dbGetAttemptErr = true →
      processPurchase s code nowA nowB f =
        .error (.wrapped "failed to query checkout attempt from DB")) ∧
    (resolveAttempt s code f = .ok a → a.isUsed = false → nowA ≤ a.expiresAt →
      f.dbGetSaleErr = true →
      processPurchase s code nowA nowB f = .error .saleNotActive) := by
  refine ⟨?_, ?_, ?_, ?_, ?_, ?_, ?_⟩
  · intro hA hF
    have hp : processPurchase s code nowA nowB f = .error .purchaseFailed := by
      rw [processPurchase_eq_of_phaseA hA, hF, execTx_infra]
    refine ⟨hp, ?_⟩
    unfold applyPurchase
    rw [hp]
  · intro h1 h2 h3 h5 h6 sale item hsale hitem hcnt
    unfold processCheckout
    simp only [h1, h2, h3, h5, h6, Bool.false_eq_true, if_false, if_true,
      hsale, hitem]
    rw [if_neg (by
      simp only [decide_eq_true_eq, not_le, getUserPurchaseCountForSale]
      exact hcnt)]
  · rfl
  · intro c' s2 h
    obtain ⟨h1, h2, h3, h5, h6, sale', hsale', ⟨item', hitem'⟩, h4, hc, hs2⟩ :=
      processCheckout_ok_inv h
    have hcof := @processCheckout_ok_of s userId itemId now newCode
      ⟨f2.dbGetSaleErr, f2.dbGetItemErr, f2.dbGetCountErr, f2.genCodeErr,
       f2.dbInsertErr, true⟩ sale' item' h1 hsale' h2 hitem' h3 h4 h5 h6
    rw [hcof, hs2, hc]
    rfl
  · intro s2 it h
    obtain ⟨a', hA, hT⟩ := processPurchase_ok_inv h
    have hA' : getValidCheckoutAttempt s code nowA ⟨g1, g2, g3, g4, true⟩ =
        .ok a' := hA
    have hT' : executePurchaseTransaction s.db a'.userId a'.itemId a'.saleId
        a'.id userMaxItemsPerSale nowB
        (⟨g1, g2, g3, g4, true⟩ : PurchaseFaults).txErr = .ok (s2.db, it) := hT
    rw [processPurchase_eq_of_phaseA hA', hT']
    rfl
  · intro hmiss hferr
    exact processPurchase_eq_of_phaseA_err
      (getValid_err_of_resolve (resolveAttempt_db_err hmiss hferr))
  · intro hres hused hexp hfs
    exact processPurchase_eq_of_phaseA_err
      (getValid_sale_missing hres hused hexp (by rw [if_pos hfs]))

/-- Faults: an infrastructure failure inside the purchase transaction. -/
def pfTx : PurchaseFaults := ⟨false, false, false, true, false⟩

/-- Checkout faults: the durable reservation insert fails. -/
def ckInsErr : CheckoutFaults := ⟨false, false, false, false, true, false⟩

theorem claim_infra_errors_witness :
    processPurchase state1 "tok" 20 20 pfTx = .error .purchaseFailed ∧
    processCheckout state0 "u1" 1 10 "tok" ckInsErr = .error .checkoutFailed ∧
    processCheckout state0 "u1" 1 10 "tok"
      ⟨noCheckoutFaults.dbGetSaleErr, noCheckoutFaults.dbGetItemErr,
       noCheckoutFaults.dbGetCountErr, noCheckoutFaults.genCodeErr,
       noCheckoutFaults.dbInsertErr, true⟩ =
      .ok ("tok", ⟨state1.db, state0.cache⟩) ∧
    processPurchase state1 "tok" 20 20 ⟨false, false, false, false, true⟩ =
      .ok (⟨state2clean.db, state1.cache⟩, item1sold) ∧
    processPurchase state1 "tok" 20 20 pfSaleErr = .error .saleNotActive := by
  refine ⟨?_, ?_, ?_, ?_, ?_⟩
  · exact ((claim_infra_errors state1 "tok" "u" "c" 0 20 20 0 pfTx att1
      false false false false false noCheckoutFaults).1 (by decide) (by decide)).1
  · exact (claim_infra_errors state0 "c" "u1" "tok" 1 0 0 10 noPurchaseFaults
      att1 false false false false false ckInsErr).2.1 (by decide) (by decide)
      (by decide) (by decide) (by decide) sale1 item1 (by decide) (by decide)
      (by decide)
  · exact (claim_infra_errors state0 "c" "u1" "tok" 1 0 0 10 noPurchaseFaults
      att1 false false false false false noCheckoutFaults).2.2.2.1 "tok" state1
      (by decide)
  · exact (claim_infra_errors state1 "tok" "u" "c" 0 20 20 0 noPurchaseFaults
      att1 false false false false false noCheckoutFaults).2.2.2.2.1
      state2clean item1sold (by decide)
  · exact (claim_infra_errors state1 "tok" "u" "c" 0 20 20 0 pfSaleErr att1
      false false false false false noCheckoutFaults).2.2.2.2.2.2 (by decide)
      (by decide) (by decide) (by decide)

/-- **C10**: when phase B's under-lock re-check finds the reservation's sale
inactive or past its end time, `CompletePurchase` fails with `PurchaseFailed`
(a generic transaction error is never mapped to `SaleNotActive`); and the
re-check consults only the active flag and the end time — a transaction run
strictly before the sale's start time still commits when every other guard
passes, because `start_time` is not re-checked. -/
theorem claim_phaseB_sale_recheck (s : SysState) (code : String)
    (nowA nowB : Int) (f : PurchaseFaults) (a : CheckoutAttempt) (row : Item)
    (sale : Sale) :
    (getValidCheckoutAttempt s code nowA f = .ok a → f.txErr = false →
      s.db.items.find? (fun r =>
        decide (r.id = a.itemId) && decide (r.saleId = a.saleId)) = some row →
      row.isSold = false →
      s.db.sales.find? (fun x => decide (x.id = a.saleId)) = some sale →
      (sale.isActive = false ∨ nowB > sale.endTime) →
      processPurchase s code nowA nowB f = .error .purchaseFailed) ∧
    (ServiceError.purchaseFailed ≠ ServiceError.saleNotActive) ∧
    (row.isSold = false → sale.isActive = true →
      s.db.items.find? (fun r =>
        decide (r.id = a.itemId) && decide (r.saleId = a.saleId)) = some row →
      s.db.sales.find? (fun x => decide (x.id = a.saleId)) = some sale →
      nowB < sale.startTime → nowB ≤ sale.endTime →
      sale.soldItems < sale.totalItems →
      countIn s.db.userSaleLimits a.userId a.saleId < userMaxItemsPerSale →
      executePurchaseTransaction s.db a.userId a.itemId a.saleId a.id
        userMaxItemsPerSale nowB false =
        .ok (commitPurchase s.db a.userId a.itemId a.saleId a.id
              userMaxItemsPerSale,
             { row with isSold := true })) := by
  refine ⟨?_, by decide, ?_⟩
  · intro hA hF hrow hsold hsale hdead
    have htx : executePurchaseTransaction s.db a.userId a.itemId a.saleId a.id
        userMaxItemsPerSale nowB f.txErr =
        .error (.other "sale is not active or has ended") := by
      rw [hF]
      exact execTx_sale_recheck hrow hsold hsale hdead
    rw [processPurchase_eq_of_phaseA hA, htx]
  · intro hsold hact hrow hsale hstart hend hcap hcnt
    exact execTx_ok_of hrow hsold hsale hact hend hcap hcnt

theorem claim_phaseB_sale_recheck_witness :
    processPurchase state1 "tok" 20 3700 noPurchaseFaults =
      .error .purchaseFailed ∧
    executePurchaseTransaction state1.db "u1" 1 1 "tok" userMaxItemsPerSale
      (-5) false =
      .ok (commitPurchase state1.db "u1" 1 1 "tok" userMaxItemsPerSale,
           ⟨1, 1, "it", "url", true⟩) := by
  constructor
  · exact (claim_phaseB_sale_recheck state1 "tok" 20 3700 noPurchaseFaults att1
      item1 sale1).1 (by decide) (by decide) (by decide) (by decide) (by decide)
      (by decide)
  · exact (claim_phaseB_sale_recheck state1 "tok" 20 (-5) noPurchaseFaults att1
      item1 sale1).2.2 (by decide) (by decide) (by decide) (by decide)
      (by decide) (by decide) (by decide) (by decide)
